import Mathlib

/-
Verification of the exoline-rs client library: a shallow embedding of the
byte codec (src/exoline/src/client/internal/encoding.rs), the connection
read loop (connection.rs), the response multiplexer and client operations
(client_impl.rs), and the VPac layout algorithm
(src/exoline/src/controller/internal/file_vpac.rs), together with proofs
of the specified properties.

Bytes are modelled as `Nat` (a Rust `u8` always holds a value < 256; the
hypotheses state the bound where a property needs it).  Rust `i32`/`i16`
values decoded from bytes are modelled as `Int` through an explicit
two's-complement interpretation, and an `f32` is modelled by its 4-byte
little-endian bit pattern (the decoder only reinterprets bytes).
-/

/-- Modelled from the spec: `src/exoline/src/client/internal/consts.rs` is not
present under src/.  Spec section 6 gives the wire frame byte table:
0x01 = response start. -/
def BEGIN_RESPONSE : Nat := 0x01

/-- Modelled from the spec: 0x02 = request start (wire frame byte table). -/
def BEGIN_REQUEST : Nat := 0x02

/-- Modelled from the spec: 0x03 = end of message (wire frame byte table). -/
def END_MESSAGE : Nat := 0x03

/-- Modelled from the spec: 0x1B = escape (wire frame byte table). -/
def ESCAPE_VALUE : Nat := 0x1B

/-- Bitwise NOT on a byte (`!byte` on a Rust `u8`): XOR with 0xFF. -/
def bnot (b : Nat) : Nat := 0xFF ^^^ b

/-- The set of bytes that `escape` replaces
(`ESCAPE_VALUE | BEGIN_REQUEST | BEGIN_RESPONSE | END_MESSAGE`). -/
def isSpecial (b : Nat) : Bool :=
  b == ESCAPE_VALUE || b == BEGIN_REQUEST || b == BEGIN_RESPONSE || b == END_MESSAGE

/-- The escaping loop of `encoding.rs::escape` (`for byte in &data[i..]`):
each special byte becomes `0x1B` followed by its bitwise NOT. -/
def escapeFrom : List Nat → List Nat
  | [] => []
  | b :: rest =>
    if isSpecial b then ESCAPE_VALUE :: bnot b :: escapeFrom rest
    else b :: escapeFrom rest

/-- `encoding.rs::escape`: scan for the first special byte; if none, the data
is returned unchanged, otherwise the prefix before it is copied verbatim and
the remainder is escaped byte by byte. -/
def escape (data : List Nat) : List Nat :=
  if data.any isSpecial then
    data.takeWhile (fun b => !isSpecial b) ++ escapeFrom (data.dropWhile (fun b => !isSpecial b))
  else data

/-- The unescaping loop of `encoding.rs::unescape`: `0x1B` is consumed and
the following byte is bitwise-NOT-ed; a trailing lone `0x1B` emits nothing
(the loop ends with `unescape_next` still set). -/
def unescapeFrom : List Nat → List Nat
  | [] => []
  | [b] => if b == ESCAPE_VALUE then [] else [b]
  | b :: c :: rest =>
    if b == ESCAPE_VALUE then bnot c :: unescapeFrom rest
    else b :: unescapeFrom (c :: rest)

/-- `encoding.rs::unescape`: scan for the first `0x1B`; if none, the data is
returned unchanged, otherwise the prefix before it is copied verbatim and the
remainder is run through the unescaping loop. -/
def unescape (data : List Nat) : List Nat :=
  if data.any (fun b => b == ESCAPE_VALUE) then
    data.takeWhile (fun b => b != ESCAPE_VALUE) ++
      unescapeFrom (data.dropWhile (fun b => b != ESCAPE_VALUE))
  else data

/-- Well-escaped byte sequences: no `0x01`, `0x02` or `0x03` anywhere, and
every `0x1B` is the first byte of a two-byte escape pair (whose second byte
is itself none of the four framing bytes). -/
def escapedOk : List Nat → Bool
  | [] => true
  | [b] => if b == ESCAPE_VALUE then false else b != 1 && b != 2 && b != 3
  | b :: c :: rest =>
    if b == ESCAPE_VALUE then
      (c != 1 && c != 2 && c != 3 && c != ESCAPE_VALUE) && escapedOk rest
    else (b != 1 && b != 2 && b != 3) && escapedOk (c :: rest)

/-- `encoding.rs::calc_crc`: 8-bit XOR of every byte. -/
def calc_crc (data : List Nat) : Nat :=
  data.foldl (fun crc b => crc ^^^ b) 0

/-- `encoding.rs::append_crc`: push the XOR checksum as the last byte. -/
def append_crc (data : List Nat) : List Nat :=
  data ++ [calc_crc data]

/-- `encoding.rs::verify_and_remove_crc`: empty input is rejected; the last
byte must equal the XOR of the rest, which is returned. -/
def verify_and_remove_crc (data : List Nat) : Option (List Nat) :=
  match data.getLast? with
  | none => none
  | some crc =>
    let body := data.dropLast
    if crc = calc_crc body then some body else none

/-- `exoline_exception.rs::EXOlineException`: the one-byte exception codes
returned by the device, with a catch-all `unknown` variant. -/
inductive EXOlineException where
  | wrongType | wrongSLn | wrongDLn | wrongTLn
  | dpacNotPresent | dpacExists | dpacNotPrep | vpacUsed
  | taskNotPresent | taskExists | wrongLoadOrder
  | instNotAllowed | killtNotAllowed | taskIsRunning | taskNotRunning
  | taskNotInstalled | steptNotAllowed | textExists | textNotPrepared
  | memoryFull | textEmpty | textTruncated | accessTooLow | accessTooHigh
  | paramIllegal | wrongKey | noAccess | tooBigMaxLength
  | procUsedByTask | outOfTextSpace | notInStepMode | dpacEmpty
  | illegalCell | illegalCommand | illegalMessageLength | addressOutsideRange
  | unknown (code : Nat)
  deriving DecidableEq, Repr

/-- The `num_enum::FromPrimitive` conversion on `EXOlineException`
(`response_data[0].into()`): mapped discriminants produce the named
variant, anything else the catch-all. -/
def exceptionFromCode : Nat → EXOlineException
  | 1 => .wrongType
  | 2 => .wrongSLn
  | 3 => .wrongDLn
  | 4 => .wrongTLn
  | 5 => .dpacNotPresent
  | 6 => .dpacExists
  | 7 => .dpacNotPrep
  | 8 => .vpacUsed
  | 9 => .taskNotPresent
  | 10 => .taskExists
  | 11 => .wrongLoadOrder
  | 12 => .instNotAllowed
  | 13 => .killtNotAllowed
  | 14 => .taskIsRunning
  | 15 => .taskNotRunning
  | 16 => .taskNotInstalled
  | 17 => .steptNotAllowed
  | 18 => .textExists
  | 19 => .textNotPrepared
  | 20 => .memoryFull
  | 21 => .textEmpty
  | 22 => .textTruncated
  | 23 => .accessTooLow
  | 24 => .accessTooHigh
  | 25 => .paramIllegal
  | 26 => .wrongKey
  | 28 => .noAccess
  | 29 => .tooBigMaxLength
  | 32 => .procUsedByTask
  | 33 => .outOfTextSpace
  | 34 => .notInStepMode
  | 35 => .dpacEmpty
  | 37 => .illegalCell
  | 38 => .illegalCommand
  | 39 => .illegalMessageLength
  | 41 => .addressOutsideRange
  | n => .unknown n

/-- `client_impl.rs::EXOlineError`: the error taxonomy of the client.  The
`std::io::Error` payload is abstracted as a numeric identifier. -/
inductive EXOlineError where
  | io (e : Nat)
  | invalidArguments (msg : String)
  | invalidResponse (msg : String)
  | exolineException (ex : EXOlineException)
  deriving DecidableEq, Repr

deriving instance DecidableEq for Except

/-- `connection.rs::ReadError`. -/
inductive ReadError where
  | io (e : Nat)
  | invalidData
  deriving DecidableEq, Repr

/-- The conversion of a `ReadError` performed in
`client_impl.rs::receive_response`. -/
def convertReadError : ReadError → EXOlineError
  | .io e => .io e
  | .invalidData => .invalidResponse "The server sent invalid data"

/-- The response-handling tail of `client_impl.rs::send_request`, applied to
the frame payload delivered by the read loop: a payload of length exactly 1
is an exception (before unescaping and before CRC removal); otherwise the
payload is unescaped and its CRC verified and stripped. -/
def processResponse (response_data : List Nat) : Except EXOlineError (List Nat) :=
  if response_data.length = 1 then
    .error (.exolineException (exceptionFromCode (response_data.headD 0)))
  else
    match verify_and_remove_crc (unescape response_data) with
    | none => .error (.invalidResponse "CRC mismatch")
    | some body => .ok body

/-- `connection.rs::read_response` as a pure function over the incoming byte
stream: classify one byte at a time until a frame is emitted (returning the
unread remainder of the stream), EOF is reached, or the data is invalid. -/
def readResponseGo : List Nat → Option (List Nat) → Except ReadError (Option (List Nat) × List Nat)
  | [], _ => .ok (none, [])
  | b :: rest, buffer =>
    if b = BEGIN_RESPONSE then
      match buffer with
      | some _ => .error .invalidData
      | none => readResponseGo rest (some [])
    else if b = BEGIN_REQUEST then .error .invalidData
    else if b = END_MESSAGE then
      match buffer with
      | none => .error .invalidData
      | some buf => .ok (some buf, rest)
    else
      match buffer with
      | none => .error .invalidData
      | some buf =>
        if buf.length > 1024 then .error .invalidData
        else readResponseGo rest (some (buf ++ [b]))

/-- One call of `connection.rs::read_response`, started with no buffer. -/
def read_response (input : List Nat) : Except ReadError (Option (List Nat) × List Nat) :=
  readResponseGo input none

/-- One outcome of `Connection::read_response` as seen by the multiplexer
loop: a delivered frame, a graceful close, or a read failure. -/
inductive ReadEvent where
  | frame (msg : List Nat)
  | closed
  | fail (e : ReadError)
  deriving DecidableEq, Repr

/-- How a run of the multiplexer loop ends: the event stream was exhausted
with the loop still blocked on the next read, or the loop returned. -/
inductive LoopOutcome where
  | stillWaiting (queue : List Nat)
  | finished (r : Except EXOlineError Unit)
  deriving DecidableEq, Repr

/-- `client_impl.rs::receive_response` as a pure function of the sequence of
read outcomes and the queue of pending one-shot slots (identified by
numbers).  Returns the completions performed, in order, and how the loop
ended: a frame completes the oldest slot, a frame with an empty queue and a
read failure terminate the loop, and a failure first completes every queued
slot with the converted error. -/
def receiveLoop : List ReadEvent → List Nat → List (Nat × Except EXOlineError (List Nat)) × LoopOutcome
  | [], queue => ([], .stillWaiting queue)
  | .closed :: _, _ => ([], .finished (.ok ()))
  | .fail e :: _, queue =>
    (queue.map (fun s => (s, .error (convertReadError e))),
      .finished (.error (convertReadError e)))
  | .frame msg :: rest, queue =>
    match queue with
    | [] => ([], .finished (.error (.invalidResponse "The server sent an unexpected response")))
    | s :: queue2 =>
      let (deliv, out) := receiveLoop rest queue2
      ((s, .ok msg) :: deliv, out)

/-- `file.rs::FileKind`. -/
inductive FileKind where
  | task | vpac | bpac | text
  deriving DecidableEq, BEq, Repr

/-- `variable.rs::VariableKind`. -/
inductive VariableKind where
  | huge | index | integer | logic | real | string
  deriving DecidableEq, BEq, Repr

/-- `variable_internal.rs::VariableKind::offset_size_of_vpac_variable`. -/
def offset_size_of_vpac_variable : VariableKind → Nat
  | .huge => 3
  | .index => 1
  | .integer => 2
  | .logic => 1
  | .real => 3
  | .string => 3

/-- `variable_internal.rs::VariableKind::page_size_of_vpac_variable`. -/
def page_size_of_vpac_variable : VariableKind → Nat
  | .huge => 6
  | .index => 2
  | .integer => 4
  | .logic => 2
  | .real => 6
  | .string => 6

/-- `variable_internal.rs::VariableKind::page_size_of_bpac_variable`. -/
def page_size_of_bpac_variable : VariableKind → Nat
  | .huge => 4
  | .index => 1
  | .integer => 2
  | .logic => 1
  | .real => 4
  | .string => 1

/-- `variable_internal.rs::VariableKind::offset_size_of_bpac_variable`
(delegates to the page size). -/
def offset_size_of_bpac_variable (k : VariableKind) : Nat :=
  page_size_of_bpac_variable k

/-- `variant.rs::Variant`.  `Huge(i32)` and `Integer(i16)` are modelled as
`Int` via two's complement; `Real(f32)` is modelled by the `u32` bit pattern
of its 4 little-endian bytes (the decoders only reinterpret bytes). -/
inductive Variant where
  | huge (v : Int)
  | index (v : Nat)
  | integer (v : Int)
  | logic (v : Bool)
  | real (bits : Nat)
  | string (s : String)
  deriving DecidableEq, BEq, Repr

/-- `variable.rs::Variable`, restricted to the fields the client reads:
`file_kind`, `load_number`, `kind` and `offset` (the fields its `PartialEq`
and `Hash` use), plus the name. -/
structure Variable where
  fileKind : FileKind
  loadNumber : Nat
  kind : VariableKind
  offset : Nat
  name : String
  deriving DecidableEq, BEq, Repr

/-- `variable.rs::impl PartialEq for Variable`: equality uses only
`(file_kind, load_number, kind, offset)` — names are ignored. -/
def varEq (a b : Variable) : Bool :=
  a.fileKind == b.fileKind && a.loadNumber == b.loadNumber &&
    a.kind == b.kind && a.offset == b.offset

/-- A file as the DPac reader consumes it: its kind, load number and the
variables in iteration order. -/
structure DpacFile where
  kind : FileKind
  loadNumber : Nat
  vars : List Variable
  deriving Repr

/-- `HashMap::insert` keyed by `Variable` equality, on an association list:
replace the value under an existing equal key, otherwise append. -/
def mapInsert (m : List (Variable × Variant)) (k : Variable) (v : Variant) :
    List (Variable × Variant) :=
  if m.any (fun p => varEq p.1 k) then
    m.map (fun p => if varEq p.1 k then (p.1, v) else p)
  else m ++ [(k, v)]

/-- Two's-complement reinterpretation of a `w`-bit unsigned value. -/
def toSigned (w n : Nat) : Int :=
  if n < 2 ^ (w - 1) then (n : Int) else (n : Int) - 2 ^ w

/-- Little-endian accumulation of a byte list into an unsigned value. -/
def leVal (bytes : List Nat) : Nat :=
  bytes.foldr (fun b acc => b + 256 * acc) 0

/-- The VPac arm of the decode match in
`client_impl.rs::read_dpac_internal`: a leading marker byte, payload at
byte `+1`.  The string arm is unreachable in the source (strings are
skipped before decoding). -/
def decodeVpacBytes (kind : VariableKind) (bytes : List Nat) : Variant :=
  match kind with
  | .huge => .huge (toSigned 32 (leVal [bytes.getD 1 0, bytes.getD 2 0, bytes.getD 3 0, bytes.getD 4 0]))
  | .index => .index (bytes.getD 1 0)
  | .integer => .integer (toSigned 16 (leVal [bytes.getD 1 0, bytes.getD 2 0]))
  | .logic => .logic (bytes.getD 1 0 != 0)
  | .real => .real (leVal [bytes.getD 1 0, bytes.getD 2 0, bytes.getD 3 0, bytes.getD 4 0])
  | .string => .string ""

/-- The BPac arm of the decode match: densely packed, payload at byte `+0`.
The string arm is unreachable in the source. -/
def decodeBpacBytes (kind : VariableKind) (bytes : List Nat) : Variant :=
  match kind with
  | .huge => .huge (toSigned 32 (leVal [bytes.getD 0 0, bytes.getD 1 0, bytes.getD 2 0, bytes.getD 3 0]))
  | .index => .index (bytes.getD 0 0)
  | .integer => .integer (toSigned 16 (leVal [bytes.getD 0 0, bytes.getD 1 0]))
  | .logic => .logic (bytes.getD 0 0 != 0)
  | .real => .real (leVal [bytes.getD 0 0, bytes.getD 1 0, bytes.getD 2 0, bytes.getD 3 0])
  | .string => .string ""

/-- Dispatch of the decode match on the file kind (only VPac and BPac are
reachable in the source). -/
def decodePrim (fileKind : FileKind) (kind : VariableKind) (bytes : List Nat) : Variant :=
  match fileKind with
  | .bpac => decodeBpacBytes kind bytes
  | _ => decodeVpacBytes kind bytes

/-- `Vec::resize(120, 0)` from `read_dpac_internal`: truncate to 120 bytes
or zero-pad up to exactly 120 bytes. -/
def resize120 (l : List Nat) : List Nat :=
  l.take 120 ++ List.replicate (120 - l.length) 0

/-- The concatenation of the first `count` device pages, each zero-resized
to 120 bytes — the linear buffer `read_dpac_internal` assembles. -/
def pageStream (B : Nat → List Nat) (count : Nat) : List Nat :=
  (List.range count).flatMap (fun p => resize120 (B p))

/-- Outcome of the page-fetching loop for one variable: the variable's
bytes were found, the variable is skipped because its bytes are beyond the
last page, or a fatal error aborts the whole read.  `data`/`page` is the
assembly state afterwards and `calls` lists the pages requested. -/
inductive FetchOut where
  | found (bytes : List Nat) (data : List Nat) (page : Int) (calls : List Nat)
  | missing (data : List Nat) (page : Int) (calls : List Nat)
  | fatal (e : EXOlineError) (calls : List Nat)
  deriving Repr

/-- The inner `loop` of `client_impl.rs::read_dpac_internal`: try to slice
the variable's bytes out of the assembled data; on a miss, stop if the page
counter is exhausted, otherwise fetch the next page (zero-resized to 120
bytes), treating `AddressOutsideRange` as the end of the pages.  `device`
abstracts `read_dpac_page_raw` at fixed address, file kind and load
number. -/
def fetchLoop (device : Nat → Except EXOlineError (List Nat)) (onlyPage : Option Nat)
    (dataOffset pageSize : Nat) (data : List Nat) (page : Int) : FetchOut :=
  if dataOffset + pageSize ≤ data.length then
    .found ((data.drop dataOffset).take pageSize) data page []
  else if 255 ≤ page then .missing data page []
  else
    let pageToRead : Nat := onlyPage.getD (page + 1).toNat
    match device pageToRead with
    | .ok next =>
      let data2 := data ++ resize120 next
      let page2 : Int := if onlyPage.isSome then 255 else page + 1
      match fetchLoop device onlyPage dataOffset pageSize data2 page2 with
      | .found b d p cs => .found b d p (pageToRead :: cs)
      | .missing d p cs => .missing d p (pageToRead :: cs)
      | .fatal e cs => .fatal e (pageToRead :: cs)
    | .error (.exolineException .addressOutsideRange) => .missing data 255 [pageToRead]
    | .error e => .fatal e [pageToRead]
termination_by (255 - page).toNat
decreasing_by
  split <;> omega

/-- The per-kind page size used by `read_dpac_internal` (the BPac arm uses
the BPac page size, the VPac arm the VPac page size). -/
def dpacPageSize (fileKind : FileKind) (k : VariableKind) : Nat :=
  match fileKind with
  | .bpac => page_size_of_bpac_variable k
  | _ => page_size_of_vpac_variable k

/-- The byte offset in the concatenated page stream used by
`read_dpac_internal`: BPac uses the offset directly, VPac doubles it. -/
def dpacPageOffset (fileKind : FileKind) (offset : Nat) : Nat :=
  match fileKind with
  | .bpac => offset
  | _ => offset * 2

/-- The variable iteration of `client_impl.rs::read_dpac_internal`: strings
are skipped; the byte offset and size are computed per file kind; in
single-page mode variables on other pages are skipped and the offset is
taken modulo 120; the fetched bytes are decoded and inserted keyed by the
variable.  Also returns the list of pages requested. -/
def readDpacGo (device : Nat → Except EXOlineError (List Nat)) (fileKind : FileKind)
    (onlyPage : Option Nat) :
    List Variable → List Nat → Int → List (Variable × Variant) → List Nat →
    Except EXOlineError (List (Variable × Variant)) × List Nat
  | [], _, _, acc, calls => (.ok acc, calls)
  | v :: rest, data, page, acc, calls =>
    if v.kind = .string then readDpacGo device fileKind onlyPage rest data page acc calls
    else
      let pageSize := dpacPageSize fileKind v.kind
      let pageOffset := dpacPageOffset fileKind v.offset
      if (match onlyPage with
          | some op => pageOffset / 120 != op
          | none => false) then
        readDpacGo device fileKind onlyPage rest data page acc calls
      else
        let dataOffset := match onlyPage with
          | none => pageOffset
          | some _ => pageOffset % 120
        match fetchLoop device onlyPage dataOffset pageSize data page with
        | .fatal e cs => (.error e, calls ++ cs)
        | .missing data2 page2 cs =>
          readDpacGo device fileKind onlyPage rest data2 page2 acc (calls ++ cs)
        | .found bytes data2 page2 cs =>
          readDpacGo device fileKind onlyPage rest data2 page2
            (mapInsert acc v (decodePrim fileKind v.kind bytes)) (calls ++ cs)

/-- `client_impl.rs::read_dpac_internal`: only DPac file kinds are allowed;
the assembly starts with empty data and page counter `-1`. -/
def read_dpac_internal (device : Nat → Except EXOlineError (List Nat)) (file : DpacFile)
    (onlyPage : Option Nat) :
    Except EXOlineError (List (Variable × Variant)) × List Nat :=
  match file.kind with
  | .bpac => readDpacGo device file.kind onlyPage file.vars [] (-1) [] []
  | .vpac => readDpacGo device file.kind onlyPage file.vars [] (-1) [] []
  | _ => (.error (.invalidArguments "Can only read pages from DPac\x27s"), [])

/-- `client_impl.rs::read_dpac`. -/
def read_dpac (device : Nat → Except EXOlineError (List Nat)) (file : DpacFile) :
    Except EXOlineError (List (Variable × Variant)) × List Nat :=
  read_dpac_internal device file none

/-- `client_impl.rs::read_dpac_page`. -/
def read_dpac_page (device : Nat → Except EXOlineError (List Nat)) (file : DpacFile)
    (page : Nat) : Except EXOlineError (List (Variable × Variant)) × List Nat :=
  read_dpac_internal device file (some page)

/-- The `for page in 0..=0xFF` loop of `client_impl.rs::read_dpac_raw`:
append each page's bytes (unresized), stop at `AddressOutsideRange`,
propagate other errors.  `n` counts the remaining iterations. -/
def readDpacRawGo (device : Nat → Except EXOlineError (List Nat)) :
    Nat → Nat → List Nat → Except EXOlineError (List Nat) × List Nat
  | 0, _, data => (.ok data, [])
  | n + 1, page, data =>
    match device page with
    | .ok bytes =>
      let (r, cs) := readDpacRawGo device n (page + 1) (data ++ bytes)
      (r, page :: cs)
    | .error (.exolineException .addressOutsideRange) => (.ok data, [page])
    | .error e => (.error e, [page])

/-- `client_impl.rs::read_dpac_raw`: pages 0 through 255. -/
def read_dpac_raw (device : Nat → Except EXOlineError (List Nat)) :
    Except EXOlineError (List Nat) × List Nat :=
  readDpacRawGo device 256 0 []

/-- One entry placed into a VPac variable map: name, kind and assigned
offset (`VariableMap::insert` as used by `file_vpac.rs`). -/
structure VpacEntry where
  name : String
  kind : VariableKind
  offset : Nat
  deriving DecidableEq, Repr

/-- The `for page in 1..pages` alias loop of `file_vpac.rs`: paged
duplicates `Pages(p).name` at `offset + p * 60`. -/
def pageAliasEntries (name : String) (kind : VariableKind) (offset : Nat) (pages : Nat) :
    List VpacEntry :=
  (List.range (pages - 1)).map
    (fun j => ⟨"Pages(" ++ toString (j + 1) ++ ")." ++ name, kind, offset + (j + 1) * 60⟩)

/-- The `for i in 0..=array_length` loop of `file_vpac.rs::add_vpac_variable`:
place `name(i)` at the running offset with its page aliases, then advance by
the offset size.  `n` is the number of remaining iterations. -/
def vpacArrayLoop (kind : VariableKind) (name : String) (pages size : Nat) :
    Nat → Nat → Nat → List VpacEntry → List VpacEntry × Nat
  | 0, _, offset, entries => (entries, offset)
  | n + 1, i, offset, entries =>
    let varName := name ++ "(" ++ toString i ++ ")"
    let entries := entries ++ [⟨varName, kind, offset⟩] ++ pageAliasEntries varName kind offset pages
    vpacArrayLoop kind name pages size n (i + 1) (offset + size) entries

/-- `file_vpac.rs::add_vpac_variable`: optionally advance the offset to the
next 60-byte segment when the variable's offset-size span crosses a segment
boundary (non-strings only), then place the variable (with page aliases),
or, for arrays, apply the array pre-alignment and place all elements. -/
def add_vpac_variable (entries : List VpacEntry) (offset : Nat) (kind : VariableKind)
    (name : String) (array_length : Option Nat) (pages : Nat)
    (align_with_segments : Bool) : List VpacEntry × Nat :=
  let size := offset_size_of_vpac_variable kind
  let offset :=
    if align_with_segments ∧ kind ≠ VariableKind.string then
      let start_segment := offset / 60
      let end_segment := (offset + size - 1) / 60
      if start_segment ≠ end_segment then (start_segment + 1) * 60 else offset
    else offset
  match array_length with
  | none =>
    (entries ++ [⟨name, kind, offset⟩] ++ pageAliasEntries name kind offset pages,
      offset + size)
  | some array_length =>
    let offset :=
      if align_with_segments then
        let offset_in_segment := offset % 60
        if offset_in_segment + size + size * array_length > 60 then
          offset + (size - offset_in_segment % size) % 3
        else offset
      else offset
    vpacArrayLoop kind name pages size (array_length + 1) 0 offset entries

/-- One parsed variable line of a VPac `variables` section
(`K[:len]Name[(arraylen)]`). -/
structure VarLine where
  kind : VariableKind
  name : String
  arrayLength : Option Nat
  deriving DecidableEq, Repr

/-- The `variables` section processing of `file_vpac.rs::parse_vpac_file`:
fold `add_vpac_variable` over the lines, starting from an empty map and
offset 0. -/
def processVpacVariables (lines : List VarLine) (pages : Nat) (align : Bool) :
    List VpacEntry × Nat :=
  lines.foldl
    (fun st line => add_vpac_variable st.1 st.2 line.kind line.name line.arrayLength pages align)
    ([], 0)

/-- Modelled from the spec: `src/exoline/src/client/internal/command_id.rs`
is not present under src/.  The variants are those referenced from
`client_impl.rs` and listed in spec section 4.4; the numeric discriminants
are not needed here, only that the variants are distinct. -/
inductive CommandId where
  | readHuge | readIndex | readInteger | readLogic | readReal | readString
  | writeHuge | writeIndex | writeInteger | writeLogic | writeReal | writeString
  | readDPacPage | getControllerId | readPartAttrHeader
  deriving DecidableEq, Repr

/-- `commands/mod.rs::CommandFileKind`: the on-wire file kind byte
(VPac = 0x00, Task = 0x01, BPac = 0x02, with a catch-all). -/
inductive CommandFileKind where
  | vpac | task | bpac | unknown (v : Nat)
  deriving DecidableEq, Repr

/-- The request structs built by `client_impl.rs::write_variable_raw`
(`WriteHugeRequest`, ..., `WriteStringRequest`), each carrying the wire
file kind, load number, `u24` offset and the value.  The real value is its
bit pattern. -/
inductive RequestData where
  | writeHuge (kind : CommandFileKind) (load_number offset : Nat) (value : Int)
  | writeIndex (kind : CommandFileKind) (load_number offset : Nat) (value : Nat)
  | writeInteger (kind : CommandFileKind) (load_number offset : Nat) (value : Int)
  | writeLogic (kind : CommandFileKind) (load_number offset : Nat) (value : Bool)
  | writeReal (kind : CommandFileKind) (load_number offset : Nat) (bits : Nat)
  | writeString (kind : CommandFileKind) (load_number offset : Nat) (value : String)
  deriving DecidableEq, Repr

/-- `variant.rs::Variant::huge` accessor. -/
def Variant.hugeVal : Variant → Option Int
  | .huge v => some v
  | _ => none

/-- `variant.rs::Variant::index` accessor. -/
def Variant.indexVal : Variant → Option Nat
  | .index v => some v
  | _ => none

/-- `variant.rs::Variant::integer` accessor. -/
def Variant.integerVal : Variant → Option Int
  | .integer v => some v
  | _ => none

/-- `variant.rs::Variant::logic` accessor. -/
def Variant.logicVal : Variant → Option Bool
  | .logic v => some v
  | _ => none

/-- `variant.rs::Variant::real` accessor (bit pattern). -/
def Variant.realVal : Variant → Option Nat
  | .real v => some v
  | _ => none

/-- `variant.rs::Variant::string` accessor. -/
def Variant.stringVal : Variant → Option String
  | .string v => some v
  | _ => none

/-- The request dispatch of `client_impl.rs::write_variable_raw` for the
Task, VPac and BPac arms, which differ only in the wire file kind and in
BPac rejecting strings (`allowString = false`). -/
def writeDispatch (ck : CommandFileKind) (allowString : Bool) (load_number : Nat)
    (variable_kind : VariableKind) (offset : Nat) (value : Variant) :
    Except EXOlineError (CommandId × RequestData) :=
  match variable_kind with
  | .huge =>
    match value.hugeVal with
    | none => .error (.invalidArguments "The variable and value kind doesn\x27t match")
    | some v => .ok (.writeHuge, .writeHuge ck load_number offset v)
  | .index =>
    match value.indexVal with
    | none => .error (.invalidArguments "The variable and value kind doesn\x27t match")
    | some v => .ok (.writeIndex, .writeIndex ck load_number offset v)
  | .integer =>
    match value.integerVal with
    | none => .error (.invalidArguments "The variable and value kind doesn\x27t match")
    | some v => .ok (.writeInteger, .writeInteger ck load_number offset v)
  | .logic =>
    match value.logicVal with
    | none => .error (.invalidArguments "The variable and value kind doesn\x27t match")
    | some v => .ok (.writeLogic, .writeLogic ck load_number offset v)
  | .real =>
    match value.realVal with
    | none => .error (.invalidArguments "The variable and value kind doesn\x27t match")
    | some v => .ok (.writeReal, .writeReal ck load_number offset v)
  | .string =>
    if allowString then
      match value.stringVal with
      | none => .error (.invalidArguments "The variable and value kind doesn\x27t match")
      | some v => .ok (.writeString, .writeString ck load_number offset v)
    else .error (.invalidArguments "Can\x27t write a string to a BPac")

/-- `client_impl.rs::write_variable_raw`: dispatch on the file kind.  The
Text arm supports only strings, builds a `WriteStringRequest` with the VPac
wire kind, and passes `CommandId::ReadString` to `send_request` (sic — the
source routes the write through the read-string command id). -/
def write_variable_raw (file_kind : FileKind) (load_number : Nat)
    (variable_kind : VariableKind) (offset : Nat) (value : Variant) :
    Except EXOlineError (CommandId × RequestData) :=
  match file_kind with
  | .task => writeDispatch .task true load_number variable_kind offset value
  | .vpac => writeDispatch .vpac true load_number variable_kind offset value
  | .bpac => writeDispatch .bpac false load_number variable_kind offset value
  | .text =>
    match variable_kind with
    | .string =>
      match value.stringVal with
      | none => .error (.invalidArguments "The variable and value kind doesn\x27t match")
      | some s => .ok (.readString, .writeString .vpac load_number offset s)
    | _ => .error (.invalidArguments "Can only write strings to text files")

/-- `client_impl.rs::write_variable`: delegate to `write_variable_raw` with
the variable's own addressing fields. -/
def write_variable (v : Variable) (value : Variant) :
    Except EXOlineError (CommandId × RequestData) :=
  write_variable_raw v.fileKind v.loadNumber v.kind v.offset value

/-- The segment invariant for one placed VPac entry: strings are exempt;
a non-string entry's offset-size span stays inside its 60-byte segment. -/
def entryOk (e : VpacEntry) : Prop :=
  e.kind = .string ∨ e.offset % 60 + offset_size_of_vpac_variable e.kind ≤ 60

/-! Theorems.  First the byte codec (escape/unescape and CRC). -/

lemma escapeFrom_append (l₁ l₂ : List Nat) :
    escapeFrom (l₁ ++ l₂) = escapeFrom l₁ ++ escapeFrom l₂ := by
  induction l₁ with
  | nil => simp [escapeFrom]
  | cons b t ih =>
    simp only [List.cons_append, escapeFrom]
    split <;> simp [ih]

lemma escapeFrom_of_no_special (l : List Nat) (h : ∀ b ∈ l, isSpecial b = false) :
    escapeFrom l = l := by
  induction l with
  | nil => rfl
  | cons b t ih =>
    have hb := h b (by simp)
    simp [escapeFrom, hb, ih fun x hx => h x (by simp [hx])]

lemma escape_eq_escapeFrom (s : List Nat) : escape s = escapeFrom s := by
  have hsplit := List.takeWhile_append_dropWhile (p := fun b => !isSpecial b) (l := s)
  unfold escape
  split
  · conv_rhs => rw [← hsplit]
    rw [escapeFrom_append]
    congr 1
    refine (escapeFrom_of_no_special _ fun b hb => ?_).symm
    simpa using List.mem_takeWhile_imp hb
  · rename_i h
    rw [List.any_eq_true] at h
    push_neg at h
    refine (escapeFrom_of_no_special _ fun b hb => ?_).symm
    simpa using h b hb

lemma unescapeFrom_cons_ne {b : Nat} (rest : List Nat) (h : (b == ESCAPE_VALUE) = false) :
    unescapeFrom (b :: rest) = b :: unescapeFrom rest := by
  cases rest <;> simp [unescapeFrom, h]

lemma unescapeFrom_no_escape_append (l₁ l₂ : List Nat)
    (h : ∀ b ∈ l₁, (b == ESCAPE_VALUE) = false) :
    unescapeFrom (l₁ ++ l₂) = l₁ ++ unescapeFrom l₂ := by
  induction l₁ with
  | nil => simp
  | cons b t ih =>
    rw [List.cons_append, unescapeFrom_cons_ne _ (h b (by simp))]
    simp [ih fun x hx => h x (by simp [hx])]

lemma unescapeFrom_of_no_escape (l : List Nat)
    (h : ∀ b ∈ l, (b == ESCAPE_VALUE) = false) : unescapeFrom l = l := by
  induction l with
  | nil => rfl
  | cons b t ih =>
    rw [unescapeFrom_cons_ne _ (h b (by simp))]
    rw [ih fun x hx => h x (by simp [hx])]

lemma unescape_eq_unescapeFrom (s : List Nat) : unescape s = unescapeFrom s := by
  have hsplit := List.takeWhile_append_dropWhile (p := fun b => b != ESCAPE_VALUE) (l := s)
  unfold unescape
  split
  · conv_rhs => rw [← hsplit]
    rw [unescapeFrom_no_escape_append]
    intro b hb
    have := List.mem_takeWhile_imp hb
    simpa using this
  · rename_i h
    rw [List.any_eq_true] at h
    push_neg at h
    refine (unescapeFrom_of_no_escape _ fun b hb => ?_).symm
    simpa using h b hb

lemma bnot_bnot (b : Nat) : bnot (bnot b) = b := by
  unfold bnot
  rw [← Nat.xor_assoc, Nat.xor_self, Nat.zero_xor]

lemma isSpecial_false_facts {b : Nat} (h : isSpecial b = false) :
    b ≠ 27 ∧ b ≠ 2 ∧ b ≠ 1 ∧ b ≠ 3 := by
  simp [isSpecial, ESCAPE_VALUE, BEGIN_REQUEST, BEGIN_RESPONSE, END_MESSAGE] at h
  refine ⟨?_, ?_, ?_, ?_⟩ <;> omega

lemma unescapeFrom_escapeFrom (s : List Nat) : unescapeFrom (escapeFrom s) = s := by
  induction s with
  | nil => rfl
  | cons b t ih =>
    by_cases hb : isSpecial b = true
    · rw [show escapeFrom (b :: t) = ESCAPE_VALUE :: bnot b :: escapeFrom t by
        simp [escapeFrom, hb]]
      simp [unescapeFrom, bnot_bnot, ih]
    · rw [Bool.not_eq_true] at hb
      obtain ⟨h27, -⟩ := isSpecial_false_facts hb
      have e27 : (b == ESCAPE_VALUE) = false := by simpa [ESCAPE_VALUE] using h27
      rw [show escapeFrom (b :: t) = b :: escapeFrom t by simp [escapeFrom, hb],
        unescapeFrom_cons_ne _ e27, ih]

lemma escapedOk_cons_ne {b : Nat} (rest : List Nat) (h : (b == ESCAPE_VALUE) = false) :
    escapedOk (b :: rest) = ((b != 1 && b != 2 && b != 3) && escapedOk rest) := by
  cases rest <;> simp [escapedOk, h]

lemma escapedOk_escapeFrom (s : List Nat) : escapedOk (escapeFrom s) = true := by
  induction s with
  | nil => rfl
  | cons b t ih =>
    by_cases hb : isSpecial b = true
    · have hcases : b = 27 ∨ b = 2 ∨ b = 1 ∨ b = 3 := by
        simp [isSpecial, ESCAPE_VALUE, BEGIN_REQUEST, BEGIN_RESPONSE, END_MESSAGE] at hb
        omega
      rw [show escapeFrom (b :: t) = ESCAPE_VALUE :: bnot b :: escapeFrom t by
        simp [escapeFrom, hb]]
      have hpair : escapedOk (ESCAPE_VALUE :: bnot b :: escapeFrom t) =
          ((bnot b != 1 && bnot b != 2 && bnot b != 3 && bnot b != ESCAPE_VALUE) &&
            escapedOk (escapeFrom t)) := by
        cases hrest : escapeFrom t <;> simp [escapedOk, ESCAPE_VALUE]
      rw [hpair, ih]
      rcases hcases with h | h | h | h <;> subst h <;> decide
    · rw [Bool.not_eq_true] at hb
      obtain ⟨h27, h2a, h1a, h3a⟩ := isSpecial_false_facts hb
      have e27 : (b == ESCAPE_VALUE) = false := by simpa [ESCAPE_VALUE] using h27
      rw [show escapeFrom (b :: t) = b :: escapeFrom t by simp [escapeFrom, hb],
        escapedOk_cons_ne _ e27, ih]
      simp [h1a, h2a, h3a]

/-- C5: for every byte sequence `s`, `unescape (escape s) = s`, and
`escape s` contains no occurrence of `0x01`, `0x02` or `0x03` at all and no
`0x1B` except as the first byte of a two-byte escape pair. -/
theorem escape_unescape_roundtrip_and_escaped_clean (s : List Nat) :
    unescape (escape s) = s ∧ escapedOk (escape s) = true := by
  rw [escape_eq_escapeFrom, unescape_eq_unescapeFrom]
  exact ⟨unescapeFrom_escapeFrom s, escapedOk_escapeFrom s⟩

lemma foldl_xor_acc (l : List Nat) (a : Nat) :
    l.foldl (fun crc b => crc ^^^ b) a = a ^^^ calc_crc l := by
  induction l generalizing a with
  | nil => simp [calc_crc]
  | cons b t ih =>
    simp only [calc_crc, List.foldl_cons, Nat.zero_xor] at *
    rw [ih (a ^^^ b), ih b, Nat.xor_assoc]

lemma calc_crc_cons (b : Nat) (l : List Nat) : calc_crc (b :: l) = b ^^^ calc_crc l := by
  simp only [calc_crc, List.foldl_cons, Nat.zero_xor]
  exact foldl_xor_acc l b

lemma calc_crc_append (u v : List Nat) :
    calc_crc (u ++ v) = calc_crc u ^^^ calc_crc v := by
  induction u with
  | nil => simp [calc_crc]
  | cons b t ih =>
    simp only [List.cons_append, calc_crc_cons, ih, Nat.xor_assoc]

lemma calc_crc_set (l : List Nat) (i m : Nat) (h : i < l.length) :
    calc_crc (l.set i ((l.getD i 0) ^^^ m)) = calc_crc l ^^^ m := by
  induction l generalizing i with
  | nil => simp at h
  | cons b t ih =>
    cases i with
    | zero =>
      simp only [List.getD_cons_zero, List.set_cons_zero, calc_crc_cons]
      rw [Nat.xor_assoc, Nat.xor_comm m (calc_crc t), ← Nat.xor_assoc]
    | succ i =>
      simp only [List.getD_cons_succ, List.set_cons_succ, calc_crc_cons]
      rw [ih i (by simpa using h), ← Nat.xor_assoc]

lemma calc_crc_append_crc (s : List Nat) : calc_crc (append_crc s) = 0 := by
  unfold append_crc
  rw [calc_crc_append]
  simp [calc_crc, Nat.xor_self]

lemma verify_none_of_calc_ne_zero (l : List Nat) (hne : l ≠ [])
    (h : calc_crc l ≠ 0) : verify_and_remove_crc l = none := by
  unfold verify_and_remove_crc
  rw [List.getLast?_eq_getLast _ hne]
  have hform : l.dropLast ++ [l.getLast hne] = l := List.dropLast_append_getLast hne
  have hcalc : calc_crc l = calc_crc l.dropLast ^^^ l.getLast hne := by
    conv_lhs => rw [← hform]
    rw [calc_crc_append]
    simp [calc_crc, Nat.xor_self]
  simp only []
  split
  · rename_i heq
    exfalso
    apply h
    rw [hcalc, heq, Nat.xor_self]
  · rfl

/-- C6: `verify_and_remove_crc (append_crc s) = some s` where the appended
byte is the XOR of all bytes of `s`, and flipping any single bit of any
byte of the CRC-appended sequence makes verification return `none`. -/
theorem crc_roundtrip_and_bitflip_detected :
    (∀ s : List Nat, verify_and_remove_crc (append_crc s) = some s) ∧
    ∀ (s : List Nat) (i k : Nat), i < (append_crc s).length → k < 8 →
      verify_and_remove_crc
        ((append_crc s).set i (((append_crc s).getD i 0) ^^^ 2 ^ k)) = none := by
  constructor
  · intro s
    unfold verify_and_remove_crc append_crc
    rw [List.getLast?_concat]
    simp
  · intro s i k hi _
    apply verify_none_of_calc_ne_zero
    · intro hcontra
      have hlen := congrArg List.length hcontra
      simp [append_crc] at hlen
    · rw [calc_crc_set _ _ _ hi, calc_crc_append_crc, Nat.zero_xor]
      positivity

/-- Witness for C6 at a concrete input: flipping bit 0 of byte 0 of
`append_crc [5]` is detected. -/
theorem crc_roundtrip_and_bitflip_detected_witness :
    0 < (append_crc [5]).length ∧ 0 < 8 ∧
      verify_and_remove_crc
        ((append_crc [5]).set 0 (((append_crc [5]).getD 0 0) ^^^ 2 ^ 0)) = none :=
  ⟨by decide, by decide,
    crc_roundtrip_and_bitflip_detected.2 [5] 0 0 (by decide) (by decide)⟩

/-- C4 counterexample: the delivered payload `[0x1B, 0xFE]` unescapes to the
single byte `[0x01]` (exception code 1), yet `send_request` reports a CRC
mismatch rather than the exception, because its length-1 test runs on the
still-escaped delivered payload. -/
theorem single_byte_after_unescape_not_exception :
    unescape [27, 254] = [1] ∧
    processResponse [27, 254] = .error (.invalidResponse "CRC mismatch") ∧
    processResponse [27, 254] ≠ .error (.exolineException (exceptionFromCode 1)) := by
  refine ⟨by decide, by decide, by decide⟩

/-- C4 (amended): when the delivered payload itself is the single byte `n`
(before unescaping), the operation returns the exception carrying code `n`
(29 maps to `TooBigMaxLength`, unmapped codes to `Unknown(n)`), with no CRC
verification: the length-1 test runs on the delivered payload before both
unescaping and CRC removal. -/
theorem processResponse_single_byte_is_exception (n : Nat) :
    processResponse [n] = .error (.exolineException (exceptionFromCode n)) ∧
    exceptionFromCode 29 = .tooBigMaxLength ∧
    exceptionFromCode 30 = .unknown 30 := by
  refine ⟨by simp [processResponse], rfl, rfl⟩

/-- C2: evaluating `write_variable_raw` on a Text-file string variable shows
the request is a `WriteStringRequest` carrying the VPac wire kind but that it
is routed through `CommandId::ReadString`, not `WriteString`; every
non-string kind on a Text file is rejected locally. -/
theorem write_text_routed_through_readString :
    (∀ (lnum off : Nat) (s : String),
      write_variable_raw .text lnum .string off (.string s) =
        .ok (.readString, .writeString .vpac lnum off s)) ∧
    CommandId.readString ≠ CommandId.writeString ∧
    ∀ (lnum off : Nat) (val : Variant),
      write_variable_raw .text lnum .huge off val =
          .error (.invalidArguments "Can only write strings to text files") ∧
      write_variable_raw .text lnum .index off val =
          .error (.invalidArguments "Can only write strings to text files") ∧
      write_variable_raw .text lnum .integer off val =
          .error (.invalidArguments "Can only write strings to text files") ∧
      write_variable_raw .text lnum .logic off val =
          .error (.invalidArguments "Can only write strings to text files") ∧
      write_variable_raw .text lnum .real off val =
          .error (.invalidArguments "Can only write strings to text files") :=
  ⟨fun _ _ _ => rfl, by decide, fun _ _ _ => ⟨rfl, rfl, rfl, rfl, rfl⟩⟩

lemma receiveLoop_frames_then_fail (msgs : List (List Nat)) (err : ReadError)
    (queue : List Nat) (h : msgs.length ≤ queue.length) :
    receiveLoop (msgs.map ReadEvent.frame ++ [ReadEvent.fail err]) queue =
      ((queue.take msgs.length).zip (msgs.map fun m => Except.ok m) ++
        (queue.drop msgs.length).map (fun s => (s, Except.error (convertReadError err))),
        .finished (.error (convertReadError err))) := by
  induction msgs generalizing queue with
  | nil => simp [receiveLoop]
  | cons m ms ih =>
    cases queue with
    | nil => simp at h
    | cons s q =>
      simp only [List.map_cons, List.cons_append, receiveLoop, List.append_eq]
      rw [ih q (by simpa using h)]
      simp

/-- C7: with `N` requests enqueued, each incoming frame completes the oldest
outstanding slot in FIFO order; a read failure after `K` delivered frames
completes the remaining `N − K` slots with the same (converted) error and
ends the loop with that error; a frame arriving with an empty queue ends the
loop with an `InvalidResponse` error. -/
theorem receive_response_fifo_drain_and_unexpected_frame :
    (∀ (msgs : List (List Nat)) (err : ReadError) (queue : List Nat),
      msgs.length ≤ queue.length →
      receiveLoop (msgs.map ReadEvent.frame ++ [ReadEvent.fail err]) queue =
        ((queue.take msgs.length).zip (msgs.map fun m => Except.ok m) ++
          (queue.drop msgs.length).map (fun s => (s, Except.error (convertReadError err))),
          .finished (.error (convertReadError err)))) ∧
    ∀ (msg : List Nat) (rest : List ReadEvent),
      receiveLoop (ReadEvent.frame msg :: rest) [] =
        ([], .finished (.error (.invalidResponse "The server sent an unexpected response"))) :=
  ⟨receiveLoop_frames_then_fail, fun _ _ => rfl⟩

/-- Witness for C7: one frame then a read failure against two queued slots
delivers the frame to the first slot and the error to the second. -/
theorem receive_response_fifo_witness :
    ([[7]] : List (List Nat)).length ≤ ([10, 11] : List Nat).length ∧
      receiveLoop [ReadEvent.frame [7], ReadEvent.fail .invalidData] [10, 11] =
        ([(10, Except.ok [7]),
          (11, Except.error (convertReadError .invalidData))],
          .finished (.error (convertReadError .invalidData))) := by
  refine ⟨by decide, ?_⟩
  have h := receive_response_fifo_drain_and_unexpected_frame.1 [[7]] .invalidData [10, 11]
    (by decide)
  simpa using h

lemma readResponseGo_replicate (n : Nat) (buf : List Nat)
    (h : buf.length + n ≤ 1025) :
    readResponseGo (List.replicate n 5 ++ [3]) (some buf) =
      .ok (some (buf ++ List.replicate n 5), []) := by
  induction n generalizing buf with
  | zero => simp [readResponseGo, BEGIN_RESPONSE, BEGIN_REQUEST, END_MESSAGE]
  | succ n ih =>
    rw [List.replicate_succ, List.cons_append]
    rw [show readResponseGo (5 :: (List.replicate n 5 ++ [3])) (some buf) =
        readResponseGo (List.replicate n 5 ++ [3]) (some (buf ++ [5])) by
      simp [readResponseGo, BEGIN_RESPONSE, BEGIN_REQUEST, END_MESSAGE]
      omega]
    rw [ih (buf ++ [5]) (by simp; omega)]
    simp

lemma readResponseGo_frame_le (input : List Nat) (buffer : Option (List Nat))
    (hbuf : ∀ buf, buffer = some buf → buf.length ≤ 1025) :
    ∀ frame rest, readResponseGo input buffer = .ok (some frame, rest) →
      frame.length ≤ 1025 := by
  induction input generalizing buffer with
  | nil => intro frame rest h; simp [readResponseGo] at h
  | cons b t ih =>
    intro frame rest h
    simp only [readResponseGo] at h
    split at h
    · split at h
      · simp at h
      · exact ih (some []) (by intro buf hb; cases hb; simp) frame rest h
    · split at h
      · simp at h
      · split at h
        · split at h
          · simp at h
          · rename_i body
            simp only [Except.ok.injEq, Prod.mk.injEq, Option.some.injEq] at h
            rw [← h.1]
            exact hbuf body rfl
        · split at h
          · simp at h
          · rename_i body
            split at h
            · simp at h
            · rename_i hlen
              exact ih (some (body ++ [b]))
                (by intro buf2 hb; cases hb; simp; omega) frame rest h

/-- C8 counterexample: a frame with a 1025-byte payload is emitted by
`read_response`, so the claimed 1024-byte bound on emitted frames is
violated (the buffer-size check runs before the byte is appended). -/
theorem read_response_emits_1025_byte_frame :
    read_response (1 :: (List.replicate 1025 5 ++ [3])) =
      .ok (some (List.replicate 1025 5), []) ∧
    1024 < (List.replicate (n := 1025) (5 : Nat)).length := by
  constructor
  · rw [read_response]
    have hstep : ∀ l : List Nat, readResponseGo (1 :: l) none = readResponseGo l (some []) := by
      intro l
      simp [readResponseGo, BEGIN_RESPONSE]
    rw [hstep, readResponseGo_replicate 1025 [] (by simp), List.nil_append]
  · rw [List.length_replicate]
    omega

/-- C8 (amended): the connection read loop bounds every emitted frame by
1025 payload bytes — the `> 1024` check runs before the byte is appended, so
a frame may reach 1025 bytes and any frame that would exceed 1025 bytes
makes `read_response` return `InvalidData` instead. -/
theorem read_response_frame_length_le_1025 (input : List Nat)
    (frame rest : List Nat) (h : read_response input = .ok (some frame, rest)) :
    frame.length ≤ 1025 :=
  readResponseGo_frame_le input none (by intro buf hb; cases hb) frame rest h

/-- Witness for C8 (amended) at a concrete input. -/
theorem read_response_frame_length_le_1025_witness :
    read_response [1, 5, 3] = .ok (some [5], []) ∧ ([5] : List Nat).length ≤ 1025 :=
  ⟨by decide, read_response_frame_length_le_1025 [1, 5, 3] [5] [] (by decide)⟩

lemma pageAliasEntries_mem {e : VpacEntry} {name : String} {kind : VariableKind}
    {o pages : Nat} (h : e ∈ pageAliasEntries name kind o pages) :
    e.kind = kind ∧ ∃ j, e.offset = o + (j + 1) * 60 := by
  simp only [pageAliasEntries, List.mem_map, List.mem_range] at h
  obtain ⟨j, -, rfl⟩ := h
  exact ⟨rfl, j, rfl⟩

lemma entryOk_of_base {kind : VariableKind} {o : Nat}
    (h : kind = .string ∨ o % 60 + offset_size_of_vpac_variable kind ≤ 60)
    {name : String} : entryOk ⟨name, kind, o⟩ := h

lemma entryOk_of_alias {kind : VariableKind} {o j : Nat}
    (h : kind = .string ∨ o % 60 + offset_size_of_vpac_variable kind ≤ 60)
    {name : String} : entryOk ⟨name, kind, o + (j + 1) * 60⟩ := by
  rcases h with h | h
  · exact Or.inl h
  · refine Or.inr ?_
    have : (o + (j + 1) * 60) % 60 = o % 60 := by omega
    simpa [this] using h

lemma vpacArrayLoop_ok (kind : VariableKind) (name : String) (pages size : Nat) :
    ∀ (count i o : Nat) (entries : List VpacEntry),
      (∀ e ∈ entries, entryOk e) →
      (∀ j, j < count →
        kind = .string ∨ (o + size * j) % 60 + offset_size_of_vpac_variable kind ≤ 60) →
      ∀ e ∈ (vpacArrayLoop kind name pages size count i o entries).1, entryOk e := by
  intro count
  induction count with
  | zero => intro i o entries h _ e he; exact h e he
  | succ n ih =>
    intro i o entries h hnew e he
    rw [vpacArrayLoop] at he
    refine ih (i + 1) (o + size) _ ?_ ?_ e he
    · intro x hx
      rcases List.mem_append.1 hx with hx | hx
      · rcases List.mem_append.1 hx with hx | hx
        · exact h x hx
        · rcases List.mem_singleton.1 hx with rfl
          exact entryOk_of_base (by simpa using hnew 0 (by omega))
      · obtain ⟨hk, j, hoff⟩ := pageAliasEntries_mem hx
        rcases hnew 0 (by omega) with hs | hb
        · exact Or.inl (hk.trans hs)
        · refine Or.inr ?_
          rw [hk, hoff]
          have : (o + (j + 1) * 60) % 60 = o % 60 := by omega
          simpa [this] using hb
    · intro j hj
      rcases hnew (j + 1) (by omega) with hs | hb
      · exact Or.inl hs
      · refine Or.inr ?_
        have : o + size + size * j = o + size * (j + 1) := by ring
        rw [this]
        exact hb

lemma array_start_elements_ok (kind : VariableKind) (hk : kind ≠ .string)
    (o al : Nat) :
    ∀ j, j < al + 1 →
      ((if o % 60 + offset_size_of_vpac_variable kind +
            offset_size_of_vpac_variable kind * al > 60
        then o + (offset_size_of_vpac_variable kind -
              o % 60 % offset_size_of_vpac_variable kind) % 3
        else o) + offset_size_of_vpac_variable kind * j) % 60 +
        offset_size_of_vpac_variable kind ≤ 60 := by
  intro j hj
  cases kind <;> simp only [offset_size_of_vpac_variable] <;> split <;> omega

lemma add_vpac_variable_none_eq (entries : List VpacEntry) (offset : Nat)
    (kind : VariableKind) (name : String) (pages : Nat) (align : Bool) :
    add_vpac_variable entries offset kind name none pages align =
      ((entries ++
          [⟨name, kind,
            if align ∧ kind ≠ VariableKind.string then
              (if offset / 60 ≠ (offset + offset_size_of_vpac_variable kind - 1) / 60
                then (offset / 60 + 1) * 60 else offset)
            else offset⟩] ++
          pageAliasEntries name kind
            (if align ∧ kind ≠ VariableKind.string then
              (if offset / 60 ≠ (offset + offset_size_of_vpac_variable kind - 1) / 60
                then (offset / 60 + 1) * 60 else offset)
            else offset) pages),
        (if align ∧ kind ≠ VariableKind.string then
          (if offset / 60 ≠ (offset + offset_size_of_vpac_variable kind - 1) / 60
            then (offset / 60 + 1) * 60 else offset)
        else offset) + offset_size_of_vpac_variable kind) := rfl

lemma add_vpac_variable_some_eq (entries : List VpacEntry) (offset : Nat)
    (kind : VariableKind) (name : String) (al pages : Nat) (align : Bool) :
    add_vpac_variable entries offset kind name (some al) pages align =
      vpacArrayLoop kind name pages (offset_size_of_vpac_variable kind) (al + 1) 0
        (let offset1 :=
          if align ∧ kind ≠ VariableKind.string then
            (if offset / 60 ≠ (offset + offset_size_of_vpac_variable kind - 1) / 60
              then (offset / 60 + 1) * 60 else offset)
          else offset
         if align then
          (if offset1 % 60 + offset_size_of_vpac_variable kind +
              offset_size_of_vpac_variable kind * al > 60
            then offset1 + (offset_size_of_vpac_variable kind -
                  offset1 % 60 % offset_size_of_vpac_variable kind) % 3
            else offset1)
         else offset1)
        entries := rfl

lemma top_align_ok (o : Nat) (kind : VariableKind) :
    (if o / 60 ≠ (o + offset_size_of_vpac_variable kind - 1) / 60
      then (o / 60 + 1) * 60 else o) % 60 + offset_size_of_vpac_variable kind ≤ 60 := by
  cases kind <;> simp only [offset_size_of_vpac_variable] <;> split <;> omega

lemma add_vpac_variable_ok (entries : List VpacEntry) (offset : Nat)
    (kind : VariableKind) (name : String) (al : Option Nat) (pages : Nat)
    (h : ∀ e ∈ entries, entryOk e) :
    ∀ e ∈ (add_vpac_variable entries offset kind name al pages true).1, entryOk e := by
  by_cases hks : kind = VariableKind.string
  · cases al with
    | none =>
      rw [add_vpac_variable_none_eq]
      intro e he
      rcases List.mem_append.1 he with he | he
      · rcases List.mem_append.1 he with he | he
        · exact h e he
        · rcases List.mem_singleton.1 he with rfl
          exact Or.inl hks
      · exact Or.inl ((pageAliasEntries_mem he).1.trans hks)
    | some al =>
      rw [add_vpac_variable_some_eq]
      exact vpacArrayLoop_ok kind name pages _ (al + 1) 0 _ entries h
        (fun j _ => Or.inl hks)
  · cases al with
    | none =>
      rw [add_vpac_variable_none_eq]
      simp only [if_pos (And.intro trivial hks)]
      intro e he
      rcases List.mem_append.1 he with he | he
      · rcases List.mem_append.1 he with he | he
        · exact h e he
        · rcases List.mem_singleton.1 he with rfl
          exact Or.inr (top_align_ok offset kind)
      · obtain ⟨hk, j, hoff⟩ := pageAliasEntries_mem he
        refine Or.inr ?_
        rw [hk, hoff]
        have hmod : ∀ a : Nat, (a + (j + 1) * 60) % 60 = a % 60 := fun a => by omega
        rw [hmod]
        exact top_align_ok offset kind
    | some al =>
      rw [add_vpac_variable_some_eq]
      simp only [if_pos (And.intro trivial hks), if_pos trivial]
      refine vpacArrayLoop_ok kind name pages _ (al + 1) 0 _ entries h ?_
      intro j hj
      refine Or.inr ?_
      exact array_start_elements_ok kind hks
        (if offset / 60 ≠ (offset + offset_size_of_vpac_variable kind - 1) / 60
          then (offset / 60 + 1) * 60 else offset) al j hj

lemma processVpacVariables_ok (lines : List VarLine) (pages : Nat) :
    ∀ e ∈ (processVpacVariables lines pages true).1, entryOk e := by
  have main : ∀ (ls : List VarLine) (st : List VpacEntry × Nat),
      (∀ e ∈ st.1, entryOk e) →
      ∀ e ∈ (ls.foldl (fun st line =>
          add_vpac_variable st.1 st.2 line.kind line.name line.arrayLength pages true) st).1,
        entryOk e := by
    intro ls
    induction ls with
    | nil => intro st h e he; exact h e he
    | cons l t ih =>
      intro st h
      exact ih _ (add_vpac_variable_ok st.1 st.2 l.kind l.name l.arrayLength pages h)
  exact fun e he => main lines ([], 0) (by simp) e he

lemma segment_floor_iff (o s : Nat) (hs : 1 ≤ s) :
    o % 60 + s ≤ 60 ↔ o / 60 = (o + s - 1) / 60 := by omega

/-- C1 counterexample: with segment alignment on, an Index array of 56
elements advances the offset to 56, and a following Huge variable is placed
at offset 56 — `floor(56/60) = 0` but `floor((56 + 6 − 1)/60) = 1`, so the
claimed page-size (6-byte) span condition fails; the source aligns by the
offset size (3 for Huge), which does not detect this crossing. -/
theorem vpac_align_page_size_counterexample :
    ¬ ∀ e ∈ (processVpacVariables
        [⟨.index, "b", some 55⟩, ⟨.huge, "f", none⟩] 1 true).1,
      e.kind ≠ .string →
        e.offset / 60 = (e.offset + page_size_of_vpac_variable e.kind - 1) / 60 := by
  decide

/-- C1 (amended): for every VPac file parsed with segment alignment enabled
and every non-string variable the parser places, the assigned offset `o`
satisfies `floor(o/60) = floor((o + offset_size − 1)/60)` where
`offset_size` is the kind's VPac offset size (Huge=3, Index=1, Integer=2,
Logic=1, Real=3) — the size the source's check actually uses. -/
theorem vpac_align_no_offset_size_crossing (lines : List VarLine) (pages : Nat)
    (e : VpacEntry) (he : e ∈ (processVpacVariables lines pages true).1)
    (hk : e.kind ≠ .string) :
    e.offset / 60 = (e.offset + offset_size_of_vpac_variable e.kind - 1) / 60 := by
  have hok := processVpacVariables_ok lines pages e he
  rcases hok with hs | hb
  · exact absurd hs hk
  · exact (segment_floor_iff e.offset _ (by cases e.kind <;> simp [offset_size_of_vpac_variable])).1 hb

/-- Witness for C1 (amended): a single Huge variable is placed at offset 0,
which does not cross a segment. -/
theorem vpac_align_no_offset_size_crossing_witness :
    (⟨"f", .huge, 0⟩ : VpacEntry) ∈
        (processVpacVariables [⟨.huge, "f", none⟩] 1 true).1 ∧
      (VpacEntry.kind ⟨"f", .huge, 0⟩ ≠ .string) ∧
      (0 : Nat) / 60 = ((0 : Nat) + offset_size_of_vpac_variable .huge - 1) / 60 :=
  ⟨by decide, by decide,
    vpac_align_no_offset_size_crossing [⟨.huge, "f", none⟩] 1 ⟨"f", .huge, 0⟩
      (by decide) (by decide)⟩

lemma resize120_length (l : List Nat) : (resize120 l).length = 120 := by
  simp [resize120]
  omega

lemma pageStream_succ (B : Nat → List Nat) (c : Nat) :
    pageStream B (c + 1) = pageStream B c ++ resize120 (B c) := by
  simp [pageStream, List.range_succ]

lemma pageStream_length (B : Nat → List Nat) (c : Nat) :
    (pageStream B c).length = c * 120 := by
  induction c with
  | zero => simp [pageStream]
  | succ n ih =>
    rw [pageStream_succ]
    simp [ih, resize120_length]
    ring

lemma pageStream_prefix (B : Nat → List Nat) {k c : Nat} (h : k ≤ c) :
    ∃ rest, pageStream B c = pageStream B k ++ rest := by
  induction c with
  | zero =>
    have hk0 : k = 0 := Nat.le_zero.1 h
    subst hk0
    exact ⟨[], by simp⟩
  | succ n ih =>
    rcases Nat.eq_or_lt_of_le h with rfl | hlt
    · exact ⟨[], by simp⟩
    · obtain ⟨rest, hrest⟩ := ih (Nat.lt_succ_iff.1 hlt)
      exact ⟨rest ++ resize120 (B n), by rw [pageStream_succ, hrest, List.append_assoc]⟩

lemma slice_of_prefix {l r : List Nat} (o n : Nat) (h : o + n ≤ l.length) :
    (((l ++ r).drop o).take n) = ((l.drop o).take n) := by
  rw [List.drop_append_of_le_length (by omega)]
  rw [List.take_append_of_le_length (by simp; omega)]

lemma fetchLoop_found {device : Nat → Except EXOlineError (List Nat)}
    {op : Option Nat} {o n : Nat} {data : List Nat} {page : Int}
    (h : o + n ≤ data.length) :
    fetchLoop device op o n data page = .found ((data.drop o).take n) data page [] := by
  rw [fetchLoop, if_pos h]

lemma fetchLoop_exhausted {device : Nat → Except EXOlineError (List Nat)}
    {op : Option Nat} {o n : Nat} {data : List Nat} {page : Int}
    (h1 : ¬ o + n ≤ data.length) (h2 : 255 ≤ page) :
    fetchLoop device op o n data page = .missing data page [] := by
  rw [fetchLoop, if_neg h1, if_pos h2]

lemma fetchLoop_step_ok_none {device : Nat → Except EXOlineError (List Nat)}
    {o n : Nat} {data : List Nat} {page : Int} {next : List Nat}
    (h1 : ¬ o + n ≤ data.length) (h2 : ¬ 255 ≤ page)
    (hdev : device (page + 1).toNat = .ok next) :
    fetchLoop device none o n data page =
      (match fetchLoop device none o n (data ++ resize120 next) (page + 1) with
        | .found b d p cs => .found b d p ((page + 1).toNat :: cs)
        | .missing d p cs => .missing d p ((page + 1).toNat :: cs)
        | .fatal e cs => .fatal e ((page + 1).toNat :: cs)) := by
  rw [fetchLoop, if_neg h1, if_neg h2]
  simp only [Option.getD_none, Option.isSome_none, Bool.false_eq_true, if_false]
  rw [hdev]

lemma fetchLoop_step_ok_some {device : Nat → Except EXOlineError (List Nat)}
    {op0 o n : Nat} {data : List Nat} {page : Int} {next : List Nat}
    (h1 : ¬ o + n ≤ data.length) (h2 : ¬ 255 ≤ page)
    (hdev : device op0 = .ok next) :
    fetchLoop device (some op0) o n data page =
      (match fetchLoop device (some op0) o n (data ++ resize120 next) 255 with
        | .found b d p cs => .found b d p (op0 :: cs)
        | .missing d p cs => .missing d p (op0 :: cs)
        | .fatal e cs => .fatal e (op0 :: cs)) := by
  rw [fetchLoop, if_neg h1, if_neg h2]
  simp only [Option.getD_some, Option.isSome_some, if_true]
  rw [hdev]

lemma fetchLoop_step_end {device : Nat → Except EXOlineError (List Nat)}
    {op : Option Nat} {o n : Nat} {data : List Nat} {page : Int}
    (h1 : ¬ o + n ≤ data.length) (h2 : ¬ 255 ≤ page)
    (hdev : device (op.getD (page + 1).toNat) =
      .error (.exolineException .addressOutsideRange)) :
    fetchLoop device op o n data page = .missing data 255 [op.getD (page + 1).toNat] := by
  rw [fetchLoop, if_neg h1, if_neg h2]
  simp only [hdev]

lemma fetchLoop_step_fatal {device : Nat → Except EXOlineError (List Nat)}
    {op : Option Nat} {o n : Nat} {data : List Nat} {page : Int}
    {e : EXOlineError}
    (h1 : ¬ o + n ≤ data.length) (h2 : ¬ 255 ≤ page)
    (hdev : device (op.getD (page + 1).toNat) = .error e)
    (he : e ≠ .exolineException .addressOutsideRange) :
    fetchLoop device op o n data page = .fatal e [op.getD (page + 1).toNat] := by
  rw [fetchLoop, if_neg h1, if_neg h2]
  simp only [hdev]

lemma mapInsert_of_not_mem {m : List (Variable × Variant)} {k : Variable} {v : Variant}
    (h : ∀ p ∈ m, varEq p.1 k = false) : mapInsert m k v = m ++ [(k, v)] := by
  unfold mapInsert
  rw [if_neg]
  intro hc
  rw [List.any_eq_true] at hc
  obtain ⟨p, hp, hpe⟩ := hc
  rw [h p hp] at hpe
  exact absurd hpe (by simp)

lemma fetchLoop_spec (device : Nat → Except EXOlineError (List Nat)) (P : Nat)
    (B : Nat → List Nat) (hP : P ≤ 254)
    (hdev : ∀ p, p ≤ P → device p = .ok (B p))
    (hend : device (P + 1) = .error (.exolineException .addressOutsideRange))
    (o n : Nat) :
    ∀ (fuel : Nat) (data : List Nat) (page : Int), (255 - page).toNat ≤ fuel →
      ((∃ k, k ≤ P + 1 ∧ page = (k : Int) - 1 ∧ data = pageStream B k) ∨
        (page = 255 ∧ data = pageStream B (P + 1))) →
      ∃ data2 page2 calls,
        fetchLoop device none o n data page =
          (if o + n ≤ (P + 1) * 120
            then FetchOut.found (((pageStream B (P + 1)).drop o).take n) data2 page2 calls
            else FetchOut.missing data2 page2 calls) ∧
        ((∃ k, k ≤ P + 1 ∧ page2 = (k : Int) - 1 ∧ data2 = pageStream B k) ∨
          (page2 = 255 ∧ data2 = pageStream B (P + 1))) := by
  intro fuel
  induction fuel with
  | zero =>
    intro data page hfuel hInv
    have hpage : 255 ≤ page := by omega
    rcases hInv with ⟨k, hk, hpg, hdata⟩ | ⟨hpg, hdata⟩
    · exfalso
      omega
    · have hlen : data.length = (P + 1) * 120 := by rw [hdata, pageStream_length]
      by_cases hfit : o + n ≤ (P + 1) * 120
      · refine ⟨data, page, [], ?_, Or.inr ⟨hpg, hdata⟩⟩
        rw [if_pos hfit, fetchLoop_found (by omega), hdata]
      · refine ⟨data, page, [], ?_, Or.inr ⟨hpg, hdata⟩⟩
        rw [if_neg hfit, fetchLoop_exhausted (by omega) hpage]
  | succ fuel ih =>
    intro data page hfuel hInv
    by_cases hfit0 : o + n ≤ data.length
    · have hfitS : o + n ≤ (P + 1) * 120 := by
        rcases hInv with ⟨k, hk, hpg, hdata⟩ | ⟨hpg, hdata⟩
        · have hl := pageStream_length B k
          rw [hdata] at hfit0
          have hkb : k * 120 ≤ (P + 1) * 120 := Nat.mul_le_mul_right _ hk
          omega
        · rw [hdata, pageStream_length] at hfit0
          omega
      refine ⟨data, page, [], ?_, hInv⟩
      rw [if_pos hfitS, fetchLoop_found hfit0]
      rcases hInv with ⟨k, hk, hpg, hdata⟩ | ⟨hpg, hdata⟩
      · obtain ⟨rest, hrest⟩ := pageStream_prefix B hk
        rw [hdata] at hfit0 ⊢
        rw [hrest, slice_of_prefix o n hfit0]
      · rw [hdata]
    · by_cases hpg255 : 255 ≤ page
      · rcases hInv with ⟨k, hk, hpg, hdata⟩ | ⟨hpg, hdata⟩
        · exfalso
          omega
        · have hnfit : ¬(o + n ≤ (P + 1) * 120) := by
            rw [hdata, pageStream_length] at hfit0
            omega
          refine ⟨data, page, [], ?_, Or.inr ⟨hpg, hdata⟩⟩
          rw [if_neg hnfit, fetchLoop_exhausted hfit0 hpg255]
      · rcases hInv with ⟨k, hk, hpg, hdata⟩ | ⟨hpg, hdata⟩
        swap
        · exfalso
          omega
        have hptr : (page + 1).toNat = k := by omega
        rcases Nat.lt_or_ge k (P + 1) with hkP | hkP
        · have hdevk : device (page + 1).toNat = .ok (B k) := by
            rw [hptr]
            exact hdev k (by omega)
          have hstep := fetchLoop_step_ok_none (o := o) (n := n) hfit0 hpg255 hdevk
          obtain ⟨d2, p2, cs, heq, hInv2⟩ := ih (data ++ resize120 (B k)) (page + 1)
            (by omega)
            (Or.inl ⟨k + 1, by omega, by push_cast; omega,
              by rw [hdata, ← pageStream_succ]⟩)
          refine ⟨d2, p2, (page + 1).toNat :: cs, ?_, hInv2⟩
          rw [hstep]
          by_cases hfitS : o + n ≤ (P + 1) * 120
          · rw [if_pos hfitS] at heq ⊢
            rw [heq]
          · rw [if_neg hfitS] at heq ⊢
            rw [heq]
        · have hkeq : k = P + 1 := by omega
          have hdevk : device (page + 1).toNat =
              .error (.exolineException .addressOutsideRange) := by
            rw [hptr, hkeq]
            exact hend
          have hnfit : ¬(o + n ≤ (P + 1) * 120) := by
            rw [hdata, pageStream_length, hkeq] at hfit0
            omega
          refine ⟨data, 255, [(page + 1).toNat], ?_,
            Or.inr ⟨rfl, by rw [hdata, hkeq]⟩⟩
          rw [if_neg hnfit,
            fetchLoop_step_end hfit0 hpg255 (by simpa using hdevk)]
          simp

lemma resize120_of_length {l : List Nat} (h : l.length = 120) : resize120 l = l := by
  rw [resize120, ← h, List.take_length]
  simp

lemma pageStream_eq_flatMap {B : Nat → List Nat} {c : Nat}
    (h : ∀ p, p < c → (B p).length = 120) :
    pageStream B c = (List.range c).flatMap B := by
  induction c with
  | zero => rfl
  | succ n ih =>
    rw [pageStream_succ, ih (fun p hp => h p (by omega)), List.range_succ]
    simp [resize120_of_length (h n (by omega))]

lemma readDpacGo_cons_string {device : Nat → Except EXOlineError (List Nat)}
    {fk : FileKind} {op : Option Nat} {v : Variable} {rest : List Variable}
    {data : List Nat} {page : Int} {acc : List (Variable × Variant)} {calls : List Nat}
    (h : v.kind = VariableKind.string) :
    readDpacGo device fk op (v :: rest) data page acc calls =
      readDpacGo device fk op rest data page acc calls := by
  rw [readDpacGo, if_pos h]

lemma readDpacGo_cons_found_none {device : Nat → Except EXOlineError (List Nat)}
    {fk : FileKind} {v : Variable} {rest : List Variable}
    {data : List Nat} {page : Int} {acc : List (Variable × Variant)} {calls : List Nat}
    {bytes d2 : List Nat} {p2 : Int} {cs : List Nat}
    (hstr : ¬ v.kind = VariableKind.string)
    (hfetch : fetchLoop device none (dpacPageOffset fk v.offset)
        (dpacPageSize fk v.kind) data page = .found bytes d2 p2 cs) :
    readDpacGo device fk none (v :: rest) data page acc calls =
      readDpacGo device fk none rest d2 p2
        (mapInsert acc v (decodePrim fk v.kind bytes)) (calls ++ cs) := by
  rw [readDpacGo, if_neg hstr]
  simp only [hfetch, Bool.false_eq_true, if_false]

lemma readDpacGo_cons_missing_none {device : Nat → Except EXOlineError (List Nat)}
    {fk : FileKind} {v : Variable} {rest : List Variable}
    {data : List Nat} {page : Int} {acc : List (Variable × Variant)} {calls : List Nat}
    {d2 : List Nat} {p2 : Int} {cs : List Nat}
    (hstr : ¬ v.kind = VariableKind.string)
    (hfetch : fetchLoop device none (dpacPageOffset fk v.offset)
        (dpacPageSize fk v.kind) data page = .missing d2 p2 cs) :
    readDpacGo device fk none (v :: rest) data page acc calls =
      readDpacGo device fk none rest d2 p2 acc (calls ++ cs) := by
  rw [readDpacGo, if_neg hstr]
  simp only [hfetch, Bool.false_eq_true, if_false]

lemma readDpacGo_cons_fatal_none {device : Nat → Except EXOlineError (List Nat)}
    {fk : FileKind} {v : Variable} {rest : List Variable}
    {data : List Nat} {page : Int} {acc : List (Variable × Variant)} {calls : List Nat}
    {e : EXOlineError} {cs : List Nat}
    (hstr : ¬ v.kind = VariableKind.string)
    (hfetch : fetchLoop device none (dpacPageOffset fk v.offset)
        (dpacPageSize fk v.kind) data page = .fatal e cs) :
    readDpacGo device fk none (v :: rest) data page acc calls = (.error e, calls ++ cs) := by
  rw [readDpacGo, if_neg hstr]
  simp only [hfetch, Bool.false_eq_true, if_false]

lemma readDpacGo_spec (device : Nat → Except EXOlineError (List Nat)) (P : Nat)
    (B : Nat → List Nat) (hP : P ≤ 254)
    (hdev : ∀ p, p ≤ P → device p = .ok (B p))
    (hend : device (P + 1) = .error (.exolineException .addressOutsideRange))
    (fk : FileKind) :
    ∀ (vars : List Variable) (data : List Nat) (page : Int)
      (acc : List (Variable × Variant)) (calls : List Nat),
      ((∃ k, k ≤ P + 1 ∧ page = (k : Int) - 1 ∧ data = pageStream B k) ∨
        (page = 255 ∧ data = pageStream B (P + 1))) →
      vars.Pairwise (fun a b => varEq a b = false) →
      (∀ v ∈ vars, ∀ p ∈ acc, varEq p.1 v = false) →
      ∃ calls2,
        readDpacGo device fk none vars data page acc calls =
          (.ok (acc ++ (vars.filter (fun v => decide (v.kind ≠ VariableKind.string ∧
              dpacPageOffset fk v.offset + dpacPageSize fk v.kind ≤ (P + 1) * 120))).map
            (fun v => (v, decodePrim fk v.kind
              (((pageStream B (P + 1)).drop (dpacPageOffset fk v.offset)).take
                (dpacPageSize fk v.kind))))), calls2) := by
  intro vars
  induction vars with
  | nil =>
    intro data page acc calls hInv hpw hdisj
    exact ⟨calls, by simp [readDpacGo]⟩
  | cons v rest ih =>
    intro data page acc calls hInv hpw hdisj
    rw [List.pairwise_cons] at hpw
    by_cases hstr : v.kind = VariableKind.string
    · obtain ⟨calls2, hrec⟩ := ih data page acc calls hInv hpw.2
        (fun u hu p hp => hdisj u (by simp [hu]) p hp)
      refine ⟨calls2, ?_⟩
      rw [readDpacGo_cons_string hstr, hrec, List.filter_cons,
        if_neg (by simp [hstr])]
    · obtain ⟨d2, p2, cs, heq, hInv2⟩ :=
        fetchLoop_spec device P B hP hdev hend
          (dpacPageOffset fk v.offset) (dpacPageSize fk v.kind)
          ((255 - page).toNat) data page (le_refl _) hInv
      by_cases hfit : dpacPageOffset fk v.offset + dpacPageSize fk v.kind ≤ (P + 1) * 120
      · rw [if_pos hfit] at heq
        have hdisj2 : ∀ u ∈ rest, ∀ p ∈ (acc ++ [(v, decodePrim fk v.kind
            (((pageStream B (P + 1)).drop (dpacPageOffset fk v.offset)).take
              (dpacPageSize fk v.kind)))]), varEq p.1 u = false := by
          intro u hu p hp
          rcases List.mem_append.1 hp with hp | hp
          · exact hdisj u (by simp [hu]) p hp
          · rcases List.mem_singleton.1 hp with rfl
            exact hpw.1 u hu
        obtain ⟨calls2, hrec⟩ := ih d2 p2 (acc ++ [(v, decodePrim fk v.kind
            (((pageStream B (P + 1)).drop (dpacPageOffset fk v.offset)).take
              (dpacPageSize fk v.kind)))]) (calls ++ cs) hInv2 hpw.2 hdisj2
        refine ⟨calls2, ?_⟩
        rw [readDpacGo_cons_found_none hstr heq,
          mapInsert_of_not_mem (hdisj v (by simp)), hrec, List.filter_cons,
          if_pos (by simp only [decide_eq_true_eq]; exact ⟨hstr, hfit⟩)]
        simp
      · rw [if_neg hfit] at heq
        obtain ⟨calls2, hrec⟩ := ih d2 p2 acc (calls ++ cs) hInv2 hpw.2
          (fun u hu p hp => hdisj u (by simp [hu]) p hp)
        refine ⟨calls2, ?_⟩
        rw [readDpacGo_cons_missing_none hstr heq, hrec, List.filter_cons,
          if_neg (by simp only [decide_eq_true_eq]; intro hc; exact hfit hc.2)]

/-- C3: for every DPac file and a device returning 120 deterministic bytes
for each page `0..=P` and raising `AddressOutsideRange` for page `P+1`
(`P ≤ 254`), `read_dpac` succeeds — the exception is not surfaced — and its
result contains exactly the non-string variables whose computed byte range
(VPac `[2*offset, 2*offset+page_size)`, BPac `[offset, offset+page_size)`)
lies within `[0, (P+1)*120)`, each decoded by `decodePrim` (VPac payload at
byte `+1` after the marker, BPac payload at byte `+0`) from the
concatenated page stream. -/
theorem read_dpac_end_of_stream (device : Nat → Except EXOlineError (List Nat))
    (file : DpacFile) (P : Nat) (B : Nat → List Nat)
    (hkind : file.kind = .vpac ∨ file.kind = .bpac)
    (hP : P ≤ 254)
    (hlen : ∀ p, p ≤ P → (B p).length = 120)
    (hdev : ∀ p, p ≤ P → device p = .ok (B p))
    (hend : device (P + 1) = .error (.exolineException .addressOutsideRange))
    (hnodup : file.vars.Pairwise (fun a b => varEq a b = false)) :
    (read_dpac device file).1 =
      .ok ((file.vars.filter (fun v => decide (v.kind ≠ VariableKind.string ∧
          dpacPageOffset file.kind v.offset +
            dpacPageSize file.kind v.kind ≤ (P + 1) * 120))).map
        (fun v => (v, decodePrim file.kind v.kind
          ((((List.range (P + 1)).flatMap B).drop
              (dpacPageOffset file.kind v.offset)).take
            (dpacPageSize file.kind v.kind))))) := by
  have hstream : pageStream B (P + 1) = (List.range (P + 1)).flatMap B :=
    pageStream_eq_flatMap (fun p hp => hlen p (by omega))
  obtain ⟨calls2, hrun⟩ := readDpacGo_spec device P B hP hdev hend file.kind
    file.vars [] (-1) [] []
    (Or.inl ⟨0, by omega, by norm_num, rfl⟩) hnodup (by simp)
  rcases hkind with hk | hk <;>
  · rw [hk] at hrun
    simp only [read_dpac, read_dpac_internal, hk]
    rw [hrun]
    simp [hstream]

/-- Witness for C3: a VPac file with one Integer variable at offset 60
(page 1, byte 0) against a device with pages 0 and 1 present; page 1 starts
`AA 11 22 …`, and the read decodes `Integer(0x2211)` from the payload at
byte +1. -/
theorem read_dpac_end_of_stream_witness :
    (read_dpac
        (fun p => if p < 2 then .ok (170 :: 17 :: 34 :: List.replicate 117 0)
          else .error (.exolineException .addressOutsideRange))
        ⟨.vpac, 5, [⟨.vpac, 5, .integer, 60, "v"⟩]⟩).1 =
      .ok [(⟨.vpac, 5, .integer, 60, "v"⟩, Variant.integer 0x2211)] := by
  have h := read_dpac_end_of_stream
    (fun p => if p < 2 then .ok (170 :: 17 :: 34 :: List.replicate 117 0)
      else .error (.exolineException .addressOutsideRange))
    ⟨.vpac, 5, [⟨.vpac, 5, .integer, 60, "v"⟩]⟩ 1
    (fun _ => 170 :: 17 :: 34 :: List.replicate 117 0)
    (Or.inl rfl) (by omega)
    (fun p hp => by simp)
    (fun p hp => by simp [show p < 2 by omega])
    (by simp)
    (by simp)
  rw [h]
  rfl

lemma resize120_idem (l : List Nat) : resize120 (resize120 l) = resize120 l :=
  resize120_of_length (resize120_length l)

lemma readDpacGo_cons_skip_some {device : Nat → Except EXOlineError (List Nat)}
    {fk : FileKind} {op0 : Nat} {v : Variable} {rest : List Variable}
    {data : List Nat} {page : Int} {acc : List (Variable × Variant)} {calls : List Nat}
    (hstr : ¬ v.kind = VariableKind.string)
    (hskip : (dpacPageOffset fk v.offset / 120 != op0) = true) :
    readDpacGo device fk (some op0) (v :: rest) data page acc calls =
      readDpacGo device fk (some op0) rest data page acc calls := by
  rw [readDpacGo, if_neg hstr]
  simp only [hskip, if_true]

lemma readDpacGo_cons_found_some {device : Nat → Except EXOlineError (List Nat)}
    {fk : FileKind} {op0 : Nat} {v : Variable} {rest : List Variable}
    {data : List Nat} {page : Int} {acc : List (Variable × Variant)} {calls : List Nat}
    {bytes d2 : List Nat} {p2 : Int} {cs : List Nat}
    (hstr : ¬ v.kind = VariableKind.string)
    (hskip : (dpacPageOffset fk v.offset / 120 != op0) = false)
    (hfetch : fetchLoop device (some op0) (dpacPageOffset fk v.offset % 120)
        (dpacPageSize fk v.kind) data page = .found bytes d2 p2 cs) :
    readDpacGo device fk (some op0) (v :: rest) data page acc calls =
      readDpacGo device fk (some op0) rest d2 p2
        (mapInsert acc v (decodePrim fk v.kind bytes)) (calls ++ cs) := by
  rw [readDpacGo, if_neg hstr]
  simp only [hskip, Bool.false_eq_true, if_false, hfetch]

lemma readDpacGo_cons_missing_some {device : Nat → Except EXOlineError (List Nat)}
    {fk : FileKind} {op0 : Nat} {v : Variable} {rest : List Variable}
    {data : List Nat} {page : Int} {acc : List (Variable × Variant)} {calls : List Nat}
    {d2 : List Nat} {p2 : Int} {cs : List Nat}
    (hstr : ¬ v.kind = VariableKind.string)
    (hskip : (dpacPageOffset fk v.offset / 120 != op0) = false)
    (hfetch : fetchLoop device (some op0) (dpacPageOffset fk v.offset % 120)
        (dpacPageSize fk v.kind) data page = .missing d2 p2 cs) :
    readDpacGo device fk (some op0) (v :: rest) data page acc calls =
      readDpacGo device fk (some op0) rest d2 p2 acc (calls ++ cs) := by
  rw [readDpacGo, if_neg hstr]
  simp only [hskip, Bool.false_eq_true, if_false, hfetch]

lemma readDpacGo_cons_fatal_some {device : Nat → Except EXOlineError (List Nat)}
    {fk : FileKind} {op0 : Nat} {v : Variable} {rest : List Variable}
    {data : List Nat} {page : Int} {acc : List (Variable × Variant)} {calls : List Nat}
    {e : EXOlineError} {cs : List Nat}
    (hstr : ¬ v.kind = VariableKind.string)
    (hskip : (dpacPageOffset fk v.offset / 120 != op0) = false)
    (hfetch : fetchLoop device (some op0) (dpacPageOffset fk v.offset % 120)
        (dpacPageSize fk v.kind) data page = .fatal e cs) :
    readDpacGo device fk (some op0) (v :: rest) data page acc calls =
      (.error e, calls ++ cs) := by
  rw [readDpacGo, if_neg hstr]
  simp only [hskip, Bool.false_eq_true, if_false, hfetch]

lemma fetchLoop_pad (device : Nat → Except EXOlineError (List Nat)) (op : Option Nat)
    (o n : Nat) :
    ∀ (fuel : Nat) (data : List Nat) (page : Int), (255 - page).toNat ≤ fuel →
      fetchLoop (fun p => (device p).map resize120) op o n data page =
        fetchLoop device op o n data page := by
  intro fuel
  induction fuel with
  | zero =>
    intro data page hfuel
    by_cases hfit : o + n ≤ data.length
    · rw [fetchLoop_found hfit, fetchLoop_found hfit]
    · have h255 : 255 ≤ page := by omega
      rw [fetchLoop_exhausted hfit h255, fetchLoop_exhausted hfit h255]
  | succ fuel ih =>
    intro data page hfuel
    by_cases hfit : o + n ≤ data.length
    · rw [fetchLoop_found hfit, fetchLoop_found hfit]
    · by_cases h255 : 255 ≤ page
      · rw [fetchLoop_exhausted hfit h255, fetchLoop_exhausted hfit h255]
      · cases hdev : device (op.getD (page + 1).toNat) with
        | ok next =>
          cases op with
          | none =>
            have hdevN : device ((page + 1).toNat) = .ok next := by simpa using hdev
            have hdevP : (fun p => (device p).map resize120) ((page + 1).toNat) =
                Except.ok (resize120 next) := by
              simp only [hdevN]
              rfl
            rw [fetchLoop_step_ok_none hfit h255 hdevP,
              fetchLoop_step_ok_none hfit h255 hdevN,
              resize120_idem, ih _ _ (by omega)]
          | some op0 =>
            have hdevN : device op0 = .ok next := by simpa using hdev
            have hdevP : (fun p => (device p).map resize120) op0 =
                Except.ok (resize120 next) := by
              simp only [hdevN]
              rfl
            rw [fetchLoop_step_ok_some hfit h255 hdevP,
              fetchLoop_step_ok_some hfit h255 hdevN,
              resize120_idem, ih _ _ (by simp)]
        | error e =>
          have hdevP : (fun p => (device p).map resize120) (op.getD (page + 1).toNat) =
              Except.error e := by
            simp only [hdev]
            rfl
          by_cases he : e = .exolineException .addressOutsideRange
          · subst he
            rw [fetchLoop_step_end hfit h255 hdevP, fetchLoop_step_end hfit h255 hdev]
          · rw [fetchLoop_step_fatal hfit h255 hdevP he,
              fetchLoop_step_fatal hfit h255 hdev he]

lemma readDpacGo_pad (device : Nat → Except EXOlineError (List Nat)) (fk : FileKind)
    (op : Option Nat) :
    ∀ (vars : List Variable) (data : List Nat) (page : Int)
      (acc : List (Variable × Variant)) (calls : List Nat),
      readDpacGo (fun p => (device p).map resize120) fk op vars data page acc calls =
        readDpacGo device fk op vars data page acc calls := by
  intro vars
  induction vars with
  | nil => intro data page acc calls; rfl
  | cons v rest ih =>
    intro data page acc calls
    by_cases hstr : v.kind = VariableKind.string
    · rw [readDpacGo_cons_string hstr, readDpacGo_cons_string hstr, ih]
    · cases op with
      | none =>
        have hpad := fetchLoop_pad device none (dpacPageOffset fk v.offset)
          (dpacPageSize fk v.kind) ((255 - page).toNat) data page (le_refl _)
        cases hfe : fetchLoop device none (dpacPageOffset fk v.offset)
            (dpacPageSize fk v.kind) data page with
        | found b d2 p2 cs =>
          rw [readDpacGo_cons_found_none hstr (hpad.trans hfe),
            readDpacGo_cons_found_none hstr hfe, ih]
        | missing d2 p2 cs =>
          rw [readDpacGo_cons_missing_none hstr (hpad.trans hfe),
            readDpacGo_cons_missing_none hstr hfe, ih]
        | fatal e cs =>
          rw [readDpacGo_cons_fatal_none hstr (hpad.trans hfe),
            readDpacGo_cons_fatal_none hstr hfe]
      | some op0 =>
        by_cases hskip : (dpacPageOffset fk v.offset / 120 != op0) = true
        · rw [readDpacGo_cons_skip_some hstr hskip,
            readDpacGo_cons_skip_some hstr hskip, ih]
        · rw [Bool.not_eq_true] at hskip
          have hpad := fetchLoop_pad device (some op0) (dpacPageOffset fk v.offset % 120)
            (dpacPageSize fk v.kind) ((255 - page).toNat) data page (le_refl _)
          cases hfe : fetchLoop device (some op0) (dpacPageOffset fk v.offset % 120)
              (dpacPageSize fk v.kind) data page with
          | found b d2 p2 cs =>
            rw [readDpacGo_cons_found_some hstr hskip (hpad.trans hfe),
              readDpacGo_cons_found_some hstr hskip hfe, ih]
          | missing d2 p2 cs =>
            rw [readDpacGo_cons_missing_some hstr hskip (hpad.trans hfe),
              readDpacGo_cons_missing_some hstr hskip hfe, ih]
          | fatal e cs =>
            rw [readDpacGo_cons_fatal_some hstr hskip (hpad.trans hfe),
              readDpacGo_cons_fatal_some hstr hskip hfe]

lemma replicate_getD_zero (m j : Nat) : (List.replicate m (0 : Nat)).getD j 0 = 0 := by
  induction m generalizing j with
  | zero => simp
  | succ m ih =>
    cases j with
    | zero => simp [List.replicate_succ]
    | succ j => simp [List.replicate_succ, ih]

lemma resize120_getD_zero (l : List Nat) (i : Nat) (h : l.length ≤ i) :
    (resize120 l).getD i 0 = 0 := by
  by_cases h120 : l.length ≤ 120
  · rw [resize120, List.getD_append_right]
    · exact replicate_getD_zero _ _
    · rw [List.length_take]
      omega
  · have hge : (resize120 l).length ≤ i := by
      rw [resize120_length]
      omega
    exact List.getD_eq_default _ _ hge

/-- C9: every device page is zero-resized to exactly 120 bytes before being
appended to the assembly buffer: running any DPac read against a device is
the same as running it against the device with its pages zero-resized, the
resized page reads `0` at every position past the returned bytes, and for a
device returning short pages the result decodes every in-range non-string
variable from the zero-padded page stream rather than omitting it. -/
theorem read_dpac_zero_pads_short_pages :
    (∀ (device : Nat → Except EXOlineError (List Nat)) (file : DpacFile) (op : Option Nat),
      read_dpac_internal (fun p => (device p).map resize120) file op =
        read_dpac_internal device file op) ∧
    (∀ (l : List Nat) (i : Nat), l.length ≤ i → (resize120 l).getD i 0 = 0) ∧
    ∀ (device : Nat → Except EXOlineError (List Nat)) (file : DpacFile) (P : Nat)
      (B : Nat → List Nat),
      file.kind = .vpac ∨ file.kind = .bpac → P ≤ 254 →
      (∀ p, p ≤ P → device p = .ok (B p)) →
      device (P + 1) = .error (.exolineException .addressOutsideRange) →
      file.vars.Pairwise (fun a b => varEq a b = false) →
      (read_dpac device file).1 =
        .ok ((file.vars.filter (fun v => decide (v.kind ≠ VariableKind.string ∧
            dpacPageOffset file.kind v.offset +
              dpacPageSize file.kind v.kind ≤ (P + 1) * 120))).map
          (fun v => (v, decodePrim file.kind v.kind
            (((pageStream B (P + 1)).drop (dpacPageOffset file.kind v.offset)).take
              (dpacPageSize file.kind v.kind))))) := by
  refine ⟨?_, resize120_getD_zero, ?_⟩
  · intro device file op
    cases hfk : file.kind <;> simp only [read_dpac_internal, hfk] <;>
      first
        | rfl
        | exact readDpacGo_pad device _ op file.vars [] (-1) [] []
  · intro device file P B hkind hP hdev hend hnodup
    obtain ⟨calls2, hrun⟩ := readDpacGo_spec device P B hP hdev hend file.kind
      file.vars [] (-1) [] []
      (Or.inl ⟨0, by omega, by norm_num, rfl⟩) hnodup (by simp)
    rcases hkind with hk | hk <;>
    · rw [hk] at hrun
      simp only [read_dpac, read_dpac_internal, hk]
      rw [hrun]
      simp

/-- Witness for C9: a device whose single page returns only 2 bytes
`AA 11`; the Integer variable at offset 0 spans bytes 0..3 of the page and
decodes with the missing bytes read as zero. -/
theorem read_dpac_zero_pads_short_pages_witness :
    (read_dpac
        (fun p => if p = 0 then .ok [170, 17]
          else .error (.exolineException .addressOutsideRange))
        ⟨.vpac, 5, [⟨.vpac, 5, .integer, 0, "v"⟩]⟩).1 =
      .ok [(⟨.vpac, 5, .integer, 0, "v"⟩, Variant.integer 17)] := by
  have h := read_dpac_zero_pads_short_pages.2.2
    (fun p => if p = 0 then .ok [170, 17]
      else .error (.exolineException .addressOutsideRange))
    ⟨.vpac, 5, [⟨.vpac, 5, .integer, 0, "v"⟩]⟩ 0 (fun _ => [170, 17])
    (Or.inl rfl) (by omega)
    (fun p hp => by simp [show p = 0 by omega])
    (by simp)
    (by simp)
  rw [h]
  rfl

lemma fetchLoop_invariant (device : Nat → Except EXOlineError (List Nat)) (op : Option Nat)
    (hop : ∀ x, op = some x → x ≤ 255) (o n : Nat) :
    ∀ (fuel : Nat) (data : List Nat) (page : Int), (255 - page).toNat ≤ fuel →
      -1 ≤ page → page ≤ 255 → data.length ≤ 120 * (page + 1).toNat →
      (∀ bytes d2 p2 cs, fetchLoop device op o n data page = .found bytes d2 p2 cs →
        o + n ≤ 30720 ∧ page ≤ p2 ∧ p2 ≤ 255 ∧ d2.length ≤ 120 * (p2 + 1).toNat ∧
          cs.length ≤ (p2 - page).toNat ∧ ∀ p ∈ cs, p ≤ 255) ∧
      (∀ d2 p2 cs, fetchLoop device op o n data page = .missing d2 p2 cs →
        page ≤ p2 ∧ p2 ≤ 255 ∧ d2.length ≤ 120 * (p2 + 1).toNat ∧
          cs.length ≤ (p2 - page).toNat ∧ ∀ p ∈ cs, p ≤ 255) ∧
      (∀ e cs, fetchLoop device op o n data page = .fatal e cs →
        cs.length ≤ (255 - page).toNat ∧ ∀ p ∈ cs, p ≤ 255) := by
  have hbase : ∀ (data : List Nat) (page : Int), -1 ≤ page → page ≤ 255 →
      data.length ≤ 120 * (page + 1).toNat → o + n ≤ data.length →
      (∀ bytes d2 p2 cs, fetchLoop device op o n data page = .found bytes d2 p2 cs →
        o + n ≤ 30720 ∧ page ≤ p2 ∧ p2 ≤ 255 ∧ d2.length ≤ 120 * (p2 + 1).toNat ∧
          cs.length ≤ (p2 - page).toNat ∧ ∀ p ∈ cs, p ≤ 255) ∧
      (∀ d2 p2 cs, fetchLoop device op o n data page = .missing d2 p2 cs →
        page ≤ p2 ∧ p2 ≤ 255 ∧ d2.length ≤ 120 * (p2 + 1).toNat ∧
          cs.length ≤ (p2 - page).toNat ∧ ∀ p ∈ cs, p ≤ 255) ∧
      (∀ e cs, fetchLoop device op o n data page = .fatal e cs →
        cs.length ≤ (255 - page).toNat ∧ ∀ p ∈ cs, p ≤ 255) := by
    intro data page h1 h2 h3 hfit
    refine ⟨?_, ?_, ?_⟩
    · intro bytes d2 p2 cs h
      rw [fetchLoop_found hfit] at h
      simp only [FetchOut.found.injEq] at h
      obtain ⟨-, hd, hp, hc⟩ := h
      subst hd hp hc
      refine ⟨by omega, le_refl _, h2, h3, by simp, by simp⟩
    · intro d2 p2 cs h
      rw [fetchLoop_found hfit] at h
      exact FetchOut.noConfusion h
    · intro e cs h
      rw [fetchLoop_found hfit] at h
      exact FetchOut.noConfusion h
  have hexh : ∀ (data : List Nat) (page : Int), -1 ≤ page → page ≤ 255 →
      data.length ≤ 120 * (page + 1).toNat → ¬ o + n ≤ data.length → 255 ≤ page →
      (∀ bytes d2 p2 cs, fetchLoop device op o n data page = .found bytes d2 p2 cs →
        o + n ≤ 30720 ∧ page ≤ p2 ∧ p2 ≤ 255 ∧ d2.length ≤ 120 * (p2 + 1).toNat ∧
          cs.length ≤ (p2 - page).toNat ∧ ∀ p ∈ cs, p ≤ 255) ∧
      (∀ d2 p2 cs, fetchLoop device op o n data page = .missing d2 p2 cs →
        page ≤ p2 ∧ p2 ≤ 255 ∧ d2.length ≤ 120 * (p2 + 1).toNat ∧
          cs.length ≤ (p2 - page).toNat ∧ ∀ p ∈ cs, p ≤ 255) ∧
      (∀ e cs, fetchLoop device op o n data page = .fatal e cs →
        cs.length ≤ (255 - page).toNat ∧ ∀ p ∈ cs, p ≤ 255) := by
    intro data page h1 h2 h3 hfit h255
    refine ⟨?_, ?_, ?_⟩
    · intro bytes d2 p2 cs h
      rw [fetchLoop_exhausted hfit h255] at h
      exact FetchOut.noConfusion h
    · intro d2 p2 cs h
      rw [fetchLoop_exhausted hfit h255] at h
      simp only [FetchOut.missing.injEq] at h
      obtain ⟨hd, hp, hc⟩ := h
      subst hd hp hc
      refine ⟨le_refl _, h2, h3, by simp, by simp⟩
    · intro e cs h
      rw [fetchLoop_exhausted hfit h255] at h
      exact FetchOut.noConfusion h
  intro fuel
  induction fuel with
  | zero =>
    intro data page hfuel h1 h2 h3
    by_cases hfit : o + n ≤ data.length
    · exact hbase data page h1 h2 h3 hfit
    · exact hexh data page h1 h2 h3 hfit (by omega)
  | succ fuel ih =>
    intro data page hfuel h1 h2 h3
    by_cases hfit : o + n ≤ data.length
    · exact hbase data page h1 h2 h3 hfit
    · by_cases h255 : 255 ≤ page
      · exact hexh data page h1 h2 h3 hfit h255
      · have hptr : op.getD (page + 1).toNat ≤ 255 := by
          cases op with
          | none => simp only [Option.getD_none]; omega
          | some x => simpa using hop x rfl
        cases hdev : device (op.getD (page + 1).toNat) with
        | ok next =>
          cases op with
          | none =>
            have hdevN : device ((page + 1).toNat) = .ok next := by simpa using hdev
            have hstep := fetchLoop_step_ok_none (o := o) (n := n)
              hfit h255 hdevN
            obtain ⟨ihF, ihM, ihFa⟩ := ih (data ++ resize120 next) (page + 1)
              (by omega) (by omega) (by omega)
              (by simp [resize120_length]; omega)
            refine ⟨?_, ?_, ?_⟩
            · intro bytes d2 p2 cs h
              cases hrec : fetchLoop device none o n (data ++ resize120 next) (page + 1) with
              | found b0 d0 p0 cs0 =>
                rw [hstep, hrec] at h
                simp only [FetchOut.found.injEq] at h
                obtain ⟨hb, hd, hp, hc⟩ := h
                subst hb hd hp hc
                obtain ⟨q1, q2, q3, q4, q5, q6⟩ := ihF b0 d0 p0 cs0 hrec
                refine ⟨q1, by omega, q3, q4, by simp; omega, ?_⟩
                intro p hp
                rcases List.mem_cons.1 hp with rfl | hp
                · simpa using (by omega : (page + 1).toNat ≤ 255)
                · exact q6 p hp
              | missing d0 p0 cs0 =>
                rw [hstep, hrec] at h
                exact FetchOut.noConfusion h
              | fatal e0 cs0 =>
                rw [hstep, hrec] at h
                exact FetchOut.noConfusion h
            · intro d2 p2 cs h
              cases hrec : fetchLoop device none o n (data ++ resize120 next) (page + 1) with
              | found b0 d0 p0 cs0 =>
                rw [hstep, hrec] at h
                exact FetchOut.noConfusion h
              | missing d0 p0 cs0 =>
                rw [hstep, hrec] at h
                simp only [FetchOut.missing.injEq] at h
                obtain ⟨hd, hp, hc⟩ := h
                subst hd hp hc
                obtain ⟨q2, q3, q4, q5, q6⟩ := ihM d0 p0 cs0 hrec
                refine ⟨by omega, q3, q4, by simp; omega, ?_⟩
                intro p hp
                rcases List.mem_cons.1 hp with rfl | hp
                · simpa using (by omega : (page + 1).toNat ≤ 255)
                · exact q6 p hp
              | fatal e0 cs0 =>
                rw [hstep, hrec] at h
                exact FetchOut.noConfusion h
            · intro e cs h
              cases hrec : fetchLoop device none o n (data ++ resize120 next) (page + 1) with
              | found b0 d0 p0 cs0 =>
                rw [hstep, hrec] at h
                exact FetchOut.noConfusion h
              | missing d0 p0 cs0 =>
                rw [hstep, hrec] at h
                exact FetchOut.noConfusion h
              | fatal e0 cs0 =>
                rw [hstep, hrec] at h
                simp only [FetchOut.fatal.injEq] at h
                obtain ⟨he, hc⟩ := h
                subst he hc
                obtain ⟨q1, q2⟩ := ihFa e0 cs0 hrec
                refine ⟨by simp; omega, ?_⟩
                intro p hp
                rcases List.mem_cons.1 hp with rfl | hp
                · simpa using (by omega : (page + 1).toNat ≤ 255)
                · exact q2 p hp
          | some op0 =>
            have hdevN : device op0 = .ok next := by simpa using hdev
            have hstep := fetchLoop_step_ok_some (o := o) (n := n)
              hfit h255 hdevN
            have hop0 : op0 ≤ 255 := hop op0 rfl
            obtain ⟨ihF, ihM, ihFa⟩ := ih (data ++ resize120 next) 255
              (by omega) (by omega) (by omega)
              (by simp [resize120_length]; omega)
            refine ⟨?_, ?_, ?_⟩
            · intro bytes d2 p2 cs h
              cases hrec : fetchLoop device (some op0) o n (data ++ resize120 next) 255 with
              | found b0 d0 p0 cs0 =>
                rw [hstep, hrec] at h
                simp only [FetchOut.found.injEq] at h
                obtain ⟨hb, hd, hp, hc⟩ := h
                subst hb hd hp hc
                obtain ⟨q1, q2, q3, q4, q5, q6⟩ := ihF b0 d0 p0 cs0 hrec
                refine ⟨q1, by omega, q3, q4, by simp; omega, ?_⟩
                intro p hp
                rcases List.mem_cons.1 hp with rfl | hp
                · exact hop0
                · exact q6 p hp
              | missing d0 p0 cs0 =>
                rw [hstep, hrec] at h
                exact FetchOut.noConfusion h
              | fatal e0 cs0 =>
                rw [hstep, hrec] at h
                exact FetchOut.noConfusion h
            · intro d2 p2 cs h
              cases hrec : fetchLoop device (some op0) o n (data ++ resize120 next) 255 with
              | found b0 d0 p0 cs0 =>
                rw [hstep, hrec] at h
                exact FetchOut.noConfusion h
              | missing d0 p0 cs0 =>
                rw [hstep, hrec] at h
                simp only [FetchOut.missing.injEq] at h
                obtain ⟨hd, hp, hc⟩ := h
                subst hd hp hc
                obtain ⟨q2, q3, q4, q5, q6⟩ := ihM d0 p0 cs0 hrec
                refine ⟨by omega, q3, q4, by simp; omega, ?_⟩
                intro p hp
                rcases List.mem_cons.1 hp with rfl | hp
                · exact hop0
                · exact q6 p hp
              | fatal e0 cs0 =>
                rw [hstep, hrec] at h
                exact FetchOut.noConfusion h
            · intro e cs h
              cases hrec : fetchLoop device (some op0) o n (data ++ resize120 next) 255 with
              | found b0 d0 p0 cs0 =>
                rw [hstep, hrec] at h
                exact FetchOut.noConfusion h
              | missing d0 p0 cs0 =>
                rw [hstep, hrec] at h
                exact FetchOut.noConfusion h
              | fatal e0 cs0 =>
                rw [hstep, hrec] at h
                simp only [FetchOut.fatal.injEq] at h
                obtain ⟨he, hc⟩ := h
                subst he hc
                obtain ⟨q1, q2⟩ := ihFa e0 cs0 hrec
                refine ⟨by simp; omega, ?_⟩
                intro p hp
                rcases List.mem_cons.1 hp with rfl | hp
                · exact hop0
                · exact q2 p hp
        | error e =>
          by_cases he : e = .exolineException .addressOutsideRange
          · subst he
            have hstep := fetchLoop_step_end (o := o) (n := n) hfit h255 hdev
            refine ⟨?_, ?_, ?_⟩
            · intro bytes d2 p2 cs h
              rw [hstep] at h
              exact FetchOut.noConfusion h
            · intro d2 p2 cs h
              rw [hstep] at h
              simp only [FetchOut.missing.injEq] at h
              obtain ⟨hd, hp, hc⟩ := h
              subst hd hp hc
              refine ⟨by omega, by omega, by omega, by simp; omega, ?_⟩
              intro p hp
              rcases List.mem_singleton.1 hp with rfl
              exact hptr
            · intro e2 cs h
              rw [hstep] at h
              exact FetchOut.noConfusion h
          · have hstep := fetchLoop_step_fatal (o := o) (n := n) hfit h255 hdev he
            refine ⟨?_, ?_, ?_⟩
            · intro bytes d2 p2 cs h
              rw [hstep] at h
              exact FetchOut.noConfusion h
            · intro d2 p2 cs h
              rw [hstep] at h
              exact FetchOut.noConfusion h
            · intro e2 cs h
              rw [hstep] at h
              simp only [FetchOut.fatal.injEq] at h
              obtain ⟨he2, hc⟩ := h
              subst he2 hc
              refine ⟨by simp; omega, ?_⟩
              intro p hp
              rcases List.mem_singleton.1 hp with rfl
              exact hptr

lemma readDpacGo_bound (device : Nat → Except EXOlineError (List Nat)) (fk : FileKind)
    (op : Option Nat) (hop : ∀ x, op = some x → x ≤ 255) :
    ∀ (vars : List Variable) (data : List Nat) (page : Int)
      (acc : List (Variable × Variant)) (calls : List Nat),
      -1 ≤ page → page ≤ 255 → data.length ≤ 120 * (page + 1).toNat →
      ∃ newCalls, (readDpacGo device fk op vars data page acc calls).2 = calls ++ newCalls ∧
        newCalls.length ≤ (255 - page).toNat ∧ ∀ p ∈ newCalls, p ≤ 255 := by
  intro vars
  induction vars with
  | nil =>
    intro data page acc calls h1 h2 h3
    exact ⟨[], by simp [readDpacGo], by simp, by simp⟩
  | cons v rest ih =>
    intro data page acc calls h1 h2 h3
    by_cases hstr : v.kind = VariableKind.string
    · rw [readDpacGo_cons_string hstr]
      exact ih data page acc calls h1 h2 h3
    · cases op with
      | none =>
        obtain ⟨ihF, ihM, ihFa⟩ := fetchLoop_invariant device none
          (by intro x hx; cases hx) (dpacPageOffset fk v.offset)
          (dpacPageSize fk v.kind) ((255 - page).toNat) data page
          (le_refl _) h1 h2 h3
        cases hfe : fetchLoop device none (dpacPageOffset fk v.offset)
            (dpacPageSize fk v.kind) data page with
        | found b d2 p2 cs =>
          obtain ⟨-, hpg, hp2, hlen2, hcs, hvals⟩ := ihF b d2 p2 cs hfe
          rw [readDpacGo_cons_found_none hstr hfe]
          obtain ⟨nc, hnc, hl, hv⟩ := ih d2 p2 _ (calls ++ cs) (by omega) hp2 hlen2
          refine ⟨cs ++ nc, by rw [hnc, List.append_assoc], by simp; omega, ?_⟩
          intro p hp
          rcases List.mem_append.1 hp with hp | hp
          · exact hvals p hp
          · exact hv p hp
        | missing d2 p2 cs =>
          obtain ⟨hpg, hp2, hlen2, hcs, hvals⟩ := ihM d2 p2 cs hfe
          rw [readDpacGo_cons_missing_none hstr hfe]
          obtain ⟨nc, hnc, hl, hv⟩ := ih d2 p2 acc (calls ++ cs) (by omega) hp2 hlen2
          refine ⟨cs ++ nc, by rw [hnc, List.append_assoc], by simp; omega, ?_⟩
          intro p hp
          rcases List.mem_append.1 hp with hp | hp
          · exact hvals p hp
          · exact hv p hp
        | fatal e cs =>
          obtain ⟨hcl, hcv⟩ := ihFa e cs hfe
          rw [readDpacGo_cons_fatal_none hstr hfe]
          exact ⟨cs, rfl, hcl, hcv⟩
      | some op0 =>
        by_cases hskip : (dpacPageOffset fk v.offset / 120 != op0) = true
        · rw [readDpacGo_cons_skip_some hstr hskip]
          exact ih data page acc calls h1 h2 h3
        · rw [Bool.not_eq_true] at hskip
          obtain ⟨ihF, ihM, ihFa⟩ := fetchLoop_invariant device (some op0) hop
            (dpacPageOffset fk v.offset % 120)
            (dpacPageSize fk v.kind) ((255 - page).toNat) data page
            (le_refl _) h1 h2 h3
          cases hfe : fetchLoop device (some op0) (dpacPageOffset fk v.offset % 120)
              (dpacPageSize fk v.kind) data page with
          | found b d2 p2 cs =>
            obtain ⟨-, hpg, hp2, hlen2, hcs, hvals⟩ := ihF b d2 p2 cs hfe
            rw [readDpacGo_cons_found_some hstr hskip hfe]
            obtain ⟨nc, hnc, hl, hv⟩ := ih d2 p2 _ (calls ++ cs) (by omega) hp2 hlen2
            refine ⟨cs ++ nc, by rw [hnc, List.append_assoc], by simp; omega, ?_⟩
            intro p hp
            rcases List.mem_append.1 hp with hp | hp
            · exact hvals p hp
            · exact hv p hp
          | missing d2 p2 cs =>
            obtain ⟨hpg, hp2, hlen2, hcs, hvals⟩ := ihM d2 p2 cs hfe
            rw [readDpacGo_cons_missing_some hstr hskip hfe]
            obtain ⟨nc, hnc, hl, hv⟩ := ih d2 p2 acc (calls ++ cs) (by omega) hp2 hlen2
            refine ⟨cs ++ nc, by rw [hnc, List.append_assoc], by simp; omega, ?_⟩
            intro p hp
            rcases List.mem_append.1 hp with hp | hp
            · exact hvals p hp
            · exact hv p hp
          | fatal e cs =>
            obtain ⟨hcl, hcv⟩ := ihFa e cs hfe
            rw [readDpacGo_cons_fatal_some hstr hskip hfe]
            exact ⟨cs, rfl, hcl, hcv⟩

lemma mapInsert_mem_keys {m : List (Variable × Variant)} {k : Variable} {v : Variant}
    {pr : Variable × Variant} (h : pr ∈ mapInsert m k v) :
    (∃ val0, (pr.1, val0) ∈ m) ∨ pr.1 = k := by
  unfold mapInsert at h
  split at h
  · rw [List.mem_map] at h
    obtain ⟨p, hp, hpe⟩ := h
    by_cases hq : varEq p.1 k = true
    · rw [if_pos hq] at hpe
      subst hpe
      exact Or.inl ⟨p.2, by simpa using hp⟩
    · rw [if_neg hq] at hpe
      subst hpe
      exact Or.inl ⟨p.2, by simpa using hp⟩
  · rcases List.mem_append.1 h with h | h
    · exact Or.inl ⟨pr.2, by simpa using h⟩
    · rcases List.mem_singleton.1 h with rfl
      exact Or.inr rfl

lemma readDpacGo_keys (device : Nat → Except EXOlineError (List Nat)) (fk : FileKind) :
    ∀ (vars : List Variable) (data : List Nat) (page : Int)
      (acc : List (Variable × Variant)) (calls : List Nat)
      (res : List (Variable × Variant)) (calls2 : List Nat),
      -1 ≤ page → page ≤ 255 → data.length ≤ 120 * (page + 1).toNat →
      readDpacGo device fk none vars data page acc calls = (.ok res, calls2) →
      ∀ pr ∈ res, (∃ val0, (pr.1, val0) ∈ acc) ∨
        (pr.1.kind ≠ VariableKind.string ∧
          dpacPageOffset fk pr.1.offset + dpacPageSize fk pr.1.kind ≤ 30720) := by
  intro vars
  induction vars with
  | nil =>
    intro data page acc calls res calls2 h1 h2 h3 hrun pr hpr
    simp only [readDpacGo, Prod.mk.injEq, Except.ok.injEq] at hrun
    rw [← hrun.1] at hpr
    exact Or.inl ⟨pr.2, by simpa using hpr⟩
  | cons v rest ih =>
    intro data page acc calls res calls2 h1 h2 h3 hrun pr hpr
    by_cases hstr : v.kind = VariableKind.string
    · rw [readDpacGo_cons_string hstr] at hrun
      exact ih data page acc calls res calls2 h1 h2 h3 hrun pr hpr
    · obtain ⟨ihF, ihM, ihFa⟩ := fetchLoop_invariant device none
        (by intro x hx; cases hx) (dpacPageOffset fk v.offset)
        (dpacPageSize fk v.kind) ((255 - page).toNat) data page
        (le_refl _) h1 h2 h3
      cases hfe : fetchLoop device none (dpacPageOffset fk v.offset)
          (dpacPageSize fk v.kind) data page with
      | found b d2 p2 cs =>
        obtain ⟨hbound, hpg, hp2, hlen2, -, -⟩ := ihF b d2 p2 cs hfe
        rw [readDpacGo_cons_found_none hstr hfe] at hrun
        have := ih d2 p2 (mapInsert acc v (decodePrim fk v.kind b)) (calls ++ cs)
          res calls2 (by omega) hp2 hlen2 hrun pr hpr
        rcases this with ⟨val0, hval0⟩ | hb
        · rcases mapInsert_mem_keys hval0 with hm | hm
          · exact Or.inl hm
          · refine Or.inr ?_
            rw [show (pr.1, val0).1 = pr.1 from rfl] at hm
            rw [hm]
            exact ⟨hstr, hbound⟩
        · exact Or.inr hb
      | missing d2 p2 cs =>
        obtain ⟨hpg, hp2, hlen2, -, -⟩ := ihM d2 p2 cs hfe
        rw [readDpacGo_cons_missing_none hstr hfe] at hrun
        exact ih d2 p2 acc (calls ++ cs) res calls2 (by omega) hp2 hlen2 hrun pr hpr
      | fatal e cs =>
        rw [readDpacGo_cons_fatal_none hstr hfe] at hrun
        simp only [Prod.mk.injEq] at hrun
        exact Except.noConfusion hrun.1

lemma readDpacRawGo_calls (device : Nat → Except EXOlineError (List Nat)) :
    ∀ (n page : Nat) (data : List Nat),
      (readDpacRawGo device n page data).2.length ≤ n ∧
        ∀ p ∈ (readDpacRawGo device n page data).2, page ≤ p ∧ p < page + n := by
  intro n
  induction n with
  | zero => intro page data; simp [readDpacRawGo]
  | succ n ih =>
    intro page data
    cases hdev : device page with
    | ok bytes =>
      rcases hrc : readDpacRawGo device n (page + 1) (data ++ bytes) with ⟨r, cs⟩
      obtain ⟨ihl, ihm⟩ := ih (page + 1) (data ++ bytes)
      rw [hrc] at ihl ihm
      simp only [readDpacRawGo, hdev, hrc]
      refine ⟨by simpa using ihl, ?_⟩
      intro p hp
      rcases List.mem_cons.1 hp with rfl | hp
      · omega
      · have := ihm p hp
        omega
    | error e =>
      by_cases he : e = .exolineException .addressOutsideRange
      · subst he
        simp only [readDpacRawGo, hdev]
        refine ⟨by simp, ?_⟩
        intro p hp
        rcases List.mem_singleton.1 hp with rfl
        omega
      · have hred : readDpacRawGo device (n + 1) page data = (.error e, [page]) := by
          simp only [readDpacRawGo, hdev]
        rw [hred]
        refine ⟨by simp, ?_⟩
        intro p hp
        rcases List.mem_singleton.1 hp with rfl
        omega

/-- C10: `read_dpac`, `read_dpac_page` and `read_dpac_raw` terminate for
every device behaviour (the embedded loops are total by a decreasing page
counter): at most 256 page reads, all with page numbers 0..=255, are ever
issued, and a non-string variable whose byte span lies beyond page 255
(byte 30720) never appears in a successful `read_dpac` result. -/
theorem read_dpac_bounded_page_reads :
    (∀ (device : Nat → Except EXOlineError (List Nat)) (file : DpacFile) (op : Option Nat),
      (∀ x, op = some x → x ≤ 255) →
      (read_dpac_internal device file op).2.length ≤ 256 ∧
        ∀ p ∈ (read_dpac_internal device file op).2, p ≤ 255) ∧
    (∀ device : Nat → Except EXOlineError (List Nat),
      (read_dpac_raw device).2.length ≤ 256 ∧ ∀ p ∈ (read_dpac_raw device).2, p ≤ 255) ∧
    ∀ (device : Nat → Except EXOlineError (List Nat)) (file : DpacFile)
      (res : List (Variable × Variant)) (calls2 : List Nat),
      read_dpac device file = (.ok res, calls2) →
      ∀ pr ∈ res, pr.1.kind ≠ VariableKind.string ∧
        dpacPageOffset file.kind pr.1.offset + dpacPageSize file.kind pr.1.kind ≤ 30720 := by
  refine ⟨?_, ?_, ?_⟩
  · intro device file op hop
    cases hfk : file.kind <;> simp only [read_dpac_internal, hfk]
    case task | text => simp
    case vpac | bpac =>
      obtain ⟨nc, hnc, hl, hv⟩ := readDpacGo_bound device file.kind op hop
        file.vars [] (-1) [] [] (by omega) (by omega) (by simp)
      rw [hfk] at hnc
      rw [hnc]
      simp only [List.nil_append]
      exact ⟨by simpa using hl, hv⟩
  · intro device
    obtain ⟨hl, hm⟩ := readDpacRawGo_calls device 256 0 []
    refine ⟨hl, ?_⟩
    intro p hp
    have := hm p hp
    omega
  · intro device file res calls2 hrun pr hpr
    rcases hfk : file.kind with hk | hk | hk | hk
    case task | text =>
      rw [read_dpac, read_dpac_internal, hfk] at hrun
      simp only [Prod.mk.injEq] at hrun
      exact Except.noConfusion hrun.1
    case vpac | bpac =>
      rw [read_dpac, read_dpac_internal, hfk] at hrun
      have := readDpacGo_keys device file.kind file.vars [] (-1) [] [] res calls2
        (by omega) (by omega) (by simp) (by rw [hfk]; exact hrun) pr hpr
      rw [hfk] at this
      rcases this with ⟨val0, hval0⟩ | hb
      · simp at hval0
      · exact hb

/-- Witness for C10: against a device that always raises
`AddressOutsideRange`, a full-file read issues at most 256 page reads, all
with page numbers at most 255. -/
theorem read_dpac_bounded_page_reads_witness :
    (read_dpac_internal (fun _ => .error (.exolineException .addressOutsideRange))
        ⟨.vpac, 5, [⟨.vpac, 5, .integer, 0, "v"⟩]⟩ none).2.length ≤ 256 ∧
      ∀ p ∈ (read_dpac_internal (fun _ => .error (.exolineException .addressOutsideRange))
          ⟨.vpac, 5, [⟨.vpac, 5, .integer, 0, "v"⟩]⟩ none).2, p ≤ 255 :=
  read_dpac_bounded_page_reads.1
    (fun _ => .error (.exolineException .addressOutsideRange))
    ⟨.vpac, 5, [⟨.vpac, 5, .integer, 0, "v"⟩]⟩ none
    (by intro x hx; cases hx)
